import Mathlib

/-!
# Recipe-Buddy: shallow embedding and verification

This file embeds the core of the Recipe-Buddy system
(`core/recipe_matcher.py`, `core/query_parser.py`,
`core/similarity_engine.py`, `core/meal_planner.py`) in Lean 4 and
proves/refutes the frozen claims about it.

Modelling conventions:
* Python strings are `List Char` (`Str`); the Python substring test
  `a in b` is `a <:+: b` (`List.IsInfix`); Python `str.split()` is
  `pyWords` (splitting on the space character — the queries and recipe
  texts handled by the system are space-separated lower-cased text).
* All compared strings are modelled after the `.lower()` step that the
  source applies uniformly to both sides of every comparison, so
  recipe fields hold the lower-cased values.
* Python floats are `ℚ` (the source only adds, multiplies and divides
  decimal literals).
* SQL `NULL`-able numeric columns are `Option ℚ`; a SQLAlchemy
  comparison against `NULL` is false, as in SQL.
* `round(x, n)` is Python's round-half-to-even, `pyRound`.
-/


abbrev Str : Type := List Char

/-- Convert a Lean string literal to the `List Char` representation. -/
def lit (s : String) : Str := s.toList

/-- Python `str.split()` restricted to the space separator: splits into
maximal runs of non-space characters, dropping empty words.
Defined with explicit fuel (one unit per consumed character). -/
def pyWordsF : Nat → Str → List Str
  | 0, _ => []
  | _, [] => []
  | n + 1, c :: cs =>
    if c = ' ' then pyWordsF n cs
    else (c :: cs.takeWhile (fun d => d ≠ ' ')) :: pyWordsF n (cs.dropWhile (fun d => d ≠ ' '))

/-- Python `str.split()` (space separator). -/
def pyWords (s : Str) : List Str := pyWordsF s.length s

/-! ## Numbers and rounding -/
/-- Python `round` to an integer: round-half-to-even (idealised over `ℚ`).
The floor is taken as `Int.fdiv num den` (floor division, denominator
positive). -/
def pyRoundInt (x : ℚ) : ℤ :=
  let f : ℤ := Int.fdiv x.num x.den
  let r : ℚ := x - f
  if r < 1/2 then f
  else if 1/2 < r then f + 1
  else if f % 2 = 0 then f else f + 1

/-- Python `round(x, n)` for positive `n`: scale, round half-to-even, unscale. -/
def pyRound (x : ℚ) (n : Nat) : ℚ :=
  (pyRoundInt (x * (10 : ℚ) ^ n)) / (10 : ℚ) ^ n

/-- Stable insertion step for a descending sort: the new element goes
after every earlier element whose key is at least its own. -/
def insertDesc {α : Type} (key : α → ℚ) (a : α) : List α → List α
  | [] => [a]
  | b :: bs => if key a ≤ key b then b :: insertDesc key a bs else a :: b :: bs

/-- Stable descending sort by a rational key (models Python's stable
`list.sort(key=..., reverse=True)`; also used for `np.argsort`
rankings, where only the membership of the result matters to the
claims). -/
def sortByDesc {α : Type} (key : α → ℚ) (l : List α) : List α :=
  l.foldl (fun acc a => insertDesc key a acc) []

/-! ## Data model

`Recipe` models a row of the `recipes` table (`core/models.py`): the
`search_text` column is precomputed at migration time
(`scripts/migrate_to_postgres.py`) as the lower-cased join of the
doubled title, the ingredients and the categories.  `MemRecipe` models
a raw JSON recipe dict used by the in-memory (scan) mode. -/
/-- The nutrition columns of the `recipes` table.  The query parser only
ever emits constraints on these columns, and
`RecipeMatcher._search_database` skips any constraint whose key is not
a `Recipe` column (`getattr(Recipe, nutrient, None)`). -/
inductive Nutrient
  | calories | protein | fat | sodium | sugar | saturates
deriving DecidableEq, Repr

/-- A `{min?, max?}` constraint entry of the parsed nutrition mapping. -/
structure Bounds where
  min? : Option ℚ
  max? : Option ℚ
deriving DecidableEq, Repr

/-- The parsed `nutrition` dict: nutrient name → bounds. -/
structure NutritionMap where
  calories : Option Bounds
  protein : Option Bounds
  fat : Option Bounds
  sodium : Option Bounds
  sugar : Option Bounds
  saturates : Option Bounds
deriving DecidableEq, Repr

def NutritionMap.empty : NutritionMap := ⟨none, none, none, none, none, none⟩

def NutritionMap.get (m : NutritionMap) : Nutrient → Option Bounds
  | .calories => m.calories
  | .protein => m.protein
  | .fat => m.fat
  | .sodium => m.sodium
  | .sugar => m.sugar
  | .saturates => m.saturates

/-- `len(nutrition_req)`: the number of nutrient keys present. -/
def NutritionMap.size (m : NutritionMap) : Nat :=
  [m.calories, m.protein, m.fat, m.sodium, m.sugar, m.saturates].countP
    (fun o => o.isSome)

/-- `if nutrition_req:` — dict truthiness. -/
def NutritionMap.isEmpty (m : NutritionMap) : Bool :=
  m.size = 0

/-- A row of the `recipes` table (`core/models.py`), with the string
columns lower-cased (see header comment). -/
structure Recipe where
  id : Nat
  title : Str
  searchText : Str
  ingredients : List Str
  categories : List Str
  calories : Option ℚ
  protein : Option ℚ
  fat : Option ℚ
  sodium : Option ℚ
  sugar : Option ℚ
  saturates : Option ℚ
deriving DecidableEq, Repr

/-- `getattr(Recipe, nutrient)` column access. -/
def Recipe.val (r : Recipe) : Nutrient → Option ℚ
  | .calories => r.calories
  | .protein => r.protein
  | .fat => r.fat
  | .sodium => r.sodium
  | .sugar => r.sugar
  | .saturates => r.saturates

/-- An in-memory (JSON mode) recipe dict as consumed by
`_search_memory` / `_calculate_rule_scores` / `_apply_constraints`. -/
structure MemRecipe where
  title : Str
  ingredients : List Str
  directions : List Str
  categories : List Str
  calories : Option ℚ
  protein : Option ℚ
  fat : Option ℚ
  sodium : Option ℚ
  sugar : Option ℚ
  saturates : Option ℚ
deriving DecidableEq, Repr

def MemRecipe.val (r : MemRecipe) : Nutrient → Option ℚ
  | .calories => r.calories
  | .protein => r.protein
  | .fat => r.fat
  | .sodium => r.sodium
  | .sugar => r.sugar
  | .saturates => r.saturates

/-- The `ParsedQuery` produced by `QueryParser.parse` (the fields the
matcher consumes). -/
structure ParsedQuery where
  dishName : Option Str
  ingredients : List Str
  excludedIngredients : List Str
  categories : List Str
  mealType : Option Str
  nutrition : NutritionMap
deriving DecidableEq, Repr

/-! ## Rule-based scoring, indexed (database) mode

`RecipeMatcher._calculate_recipe_score`, embedded block by block. -/
/-- The dish-name block of `_calculate_recipe_score`
(recipe_matcher.py lines 247-273).  `title` and `searchText` are the
lower-cased recipe fields, `dish` the lower-cased dish name. -/
def dishScore (title searchText dish : Str) : ℚ :=
  if title = dish then 100
  else if (' ' :: dish ++ [' ']) <:+: (' ' :: title ++ [' ']) then
    let titleWords := pyWords title
    if dish ∈ titleWords then
      let position := titleWords.indexOf dish
      if position = 0 then 60
      else if position = titleWords.length - 1 then 65
      else 55
    else 50
  else if dish <:+: title then 35
  else if dish <:+: searchText then 20
  else 0

/-- The dish-name tiers as the spec words them: exact equality; else
whole-word (position-scored); else phrase-boundary with no exact word;
else substring of the title; else substring of the search text. -/
def dishScoreSpec (title searchText dish : Str) : ℚ :=
  if title = dish then 100
  else if dish ∈ pyWords title then
    let position := (pyWords title).indexOf dish
    if position = 0 then 60
    else if position = (pyWords title).length - 1 then 65
    else 55
  else if (' ' :: dish ++ [' ']) <:+: (' ' :: title ++ [' ']) then 50
  else if dish <:+: title then 35
  else if dish <:+: searchText then 20
  else 0

/-- Per-ingredient block of the required-ingredients loop of
`_calculate_recipe_score` (lines 276-303): 15 base + position bonus
when the ingredient is in the title, plus 10 when it is in the search
text (cumulative). -/
def ingScoreOne (title searchText : Str) (ing : Str) : ℚ :=
  (if ing <:+: title then
    let titleWords := pyWords title
    15 + (if ing ∈ titleWords then
            let position := titleWords.indexOf ing
            if position = 0 then (10 : ℚ)
            else if position = 1 then 8
            else if position = 2 then 5
            else 2
          else 5)
   else 0)
  + (if ing <:+: searchText then 10 else 0)

/-- The combo-bonus block of `_calculate_recipe_score` (lines 305-325):
+20 when the dish name and at least one required ingredient are in the
title, and +10 for every required ingredient that is a whole title
word within 2 positions of the dish word. -/
def comboBonus (title : Str) (dishName : Option Str) (ings : List Str) : ℚ :=
  match dishName with
  | none => 0
  | some dish =>
    if ings = [] then 0
    else
      let ingredientsInTitle := ings.countP (fun ing => decide (ing <:+: title))
      if dish <:+: title ∧ 0 < ingredientsInTitle then
        20 +
          (let titleWords := pyWords title
           if dish ∈ titleWords then
             (ings.map (fun ing =>
               if ing ∈ titleWords ∧
                  ((titleWords.indexOf dish : ℤ) - (titleWords.indexOf ing : ℤ)).natAbs ≤ 2
               then (10 : ℚ) else 0)).sum
           else 0)
      else 0

/-- Category block (lines 327-332): +12 per parsed category found in the
search text. -/
def catScore (searchText : Str) (cats : List Str) : ℚ :=
  (cats.map (fun c => if c <:+: searchText then (12 : ℚ) else 0)).sum

/-- Meal-type block (lines 334-337): +15 when the meal type is in the
search text. -/
def mealScore (searchText : Str) (mealType : Option Str) : ℚ :=
  match mealType with
  | none => 0
  | some m => if m <:+: searchText then 15 else 0

/-- Nutrition block (lines 339-342): +20 per nutrition constraint
present in the parsed query. -/
def nutritionScoreBonus (nm : NutritionMap) : ℚ :=
  if nm.isEmpty then 0 else 20 * (nm.size : ℚ)

/-- `RecipeMatcher._calculate_recipe_score` (lines 231-344): the
indexed-mode rule-based score, 0-100-ish raw points. -/
def calcRecipeScore (r : Recipe) (pq : ParsedQuery) : ℚ :=
  (match pq.dishName with
   | none => 0
   | some dish => dishScore r.title r.searchText dish)
  + (pq.ingredients.map (ingScoreOne r.title r.searchText)).sum
  + comboBonus r.title pq.dishName pq.ingredients
  + catScore r.searchText pq.categories
  + mealScore r.searchText pq.mealType
  + nutritionScoreBonus pq.nutrition

/-! ## Indexed-mode hard filters (`_search_database`, steps 1-4) -/
/-- STEP 1 (lines 144-159), as written in the source: the candidate is
kept unless `search_text LIKE %exc% AND (title LIKE %exc% OR
search_text LIKE %exc%)` for some excluded ingredient. -/
def dbExcludedOk (r : Recipe) (excluded : List Str) : Bool :=
  excluded.all (fun exc =>
    !(decide (exc <:+: r.searchText) &&
      (decide (exc <:+: r.title) || decide (exc <:+: r.searchText))))

/-- One nutrient of STEP 2 (lines 161-172): the column must be non-NULL
and satisfy the declared min/max bounds. -/
def dbBoundsOk (v : Option ℚ) (b : Bounds) : Bool :=
  match v with
  | none => false
  | some x =>
    (b.min?.all (fun m => decide (m ≤ x))) && (b.max?.all (fun M => decide (x ≤ M)))

/-- One nutrient key of STEP 2: no constraint declared, or the column
check passes. -/
def nutrientCheckDb (r : Recipe) (nm : NutritionMap) (n : Nutrient) : Bool :=
  match nm.get n with
  | none => true
  | some b => dbBoundsOk (r.val n) b

/-- STEP 2 over the whole nutrition mapping. -/
def dbNutritionOk (r : Recipe) (nm : NutritionMap) : Bool :=
  [Nutrient.calories, .protein, .fat, .sodium, .sugar, .saturates].all
    (nutrientCheckDb r nm)

/-- STEP 3 (lines 174-184): every required ingredient must appear in the
title or the search text. -/
def dbIngredientsOk (r : Recipe) (ings : List Str) : Bool :=
  ings.all (fun ing => decide (ing <:+: r.title) || decide (ing <:+: r.searchText))

/-- STEP 4 (lines 186-194): the dish name, when present, must appear in
the title or the search text. -/
def dbDishOk (r : Recipe) (dishName : Option Str) : Bool :=
  match dishName with
  | none => true
  | some d => decide (d <:+: r.title) || decide (d <:+: r.searchText)

/-- The conjunction of the four indexed-mode hard filters. -/
def dbFilter (pq : ParsedQuery) (r : Recipe) : Bool :=
  dbExcludedOk r pq.excludedIngredients &&
  dbNutritionOk r pq.nutrition &&
  dbIngredientsOk r pq.ingredients &&
  dbDishOk r pq.dishName

/-- A returned search hit: the recipe reference and the published
normalised scores (`score` and `rule_score` are both
`round(raw/100, 3)` in indexed mode). -/
structure ScoredMatch where
  recipe : Recipe
  score : ℚ
  ruleScore : ℚ
deriving DecidableEq, Repr

/-- `RecipeMatcher._search_database` (lines 113-229): filter, cap the
candidate list at `max_results * 10`, score, keep positive scores,
stable-sort by descending score, slice `[offset : offset+max_results]`. -/
def searchDatabase (db : List Recipe) (pq : ParsedQuery) (maxResults offset : Nat) :
    List ScoredMatch :=
  let candidates := (db.filter (dbFilter pq)).take (maxResults * 10)
  let scored := candidates.filterMap (fun r =>
    let score := calcRecipeScore r pq
    if 0 < score then
      some ⟨r, pyRound (score / 100) 3, pyRound (score / 100) 3⟩
    else none)
  let sorted := sortByDesc (fun s => s.score) scored
  (sorted.drop offset).take maxResults

/-! ## Scan (in-memory JSON) mode

`_recipe_to_text`, `_calculate_rule_scores`, `_apply_constraints`,
`_nutrition_matches` and `_search_memory`.  The TF-IDF semantic scores
come from an external collaborator (scikit-learn); they enter the
embedding as an oracle `semantic : Nat → ℚ` giving the cosine score of
each recipe index. -/
/-- Python `' '.join(parts)`. -/
def joinSpace (parts : List Str) : Str := List.intercalate [' '] parts

/-- `RecipeMatcher._recipe_to_text` (lines 63-86): title, then the
space-joined ingredients, directions and categories when nonempty,
joined by single spaces (all fields already lower-cased, see header). -/
def recipeToText (r : MemRecipe) : Str :=
  joinSpace ([r.title]
    ++ (if r.ingredients = [] then [] else [joinSpace r.ingredients])
    ++ (if r.directions = [] then [] else [joinSpace r.directions])
    ++ (if r.categories = [] then [] else [joinSpace r.categories]))

/-- The apostrophe character (used by Python `str(list)` rendering). -/
def quoteChar : Char := Char.ofNat 39

/-- Python `str(list_of_strings)`: `['a', 'b']`.  (The source lower-cases
the result; our strings are already lower-cased.) -/
def pyStrList (l : List Str) : Str :=
  '[' :: (List.intercalate (lit ", ") (l.map (fun s => quoteChar :: s ++ [quoteChar]))) ++ [']']

/-- The per-recipe raw (pre-normalisation) score of
`_calculate_rule_scores` (lines 417-453): dish 0.4/0.2, ingredients
0.3 × fraction matched, categories 0.2 × fraction matched, meal type
0.1. -/
def memRuleScoreRaw (pq : ParsedQuery) (r : MemRecipe) : ℚ :=
  let recipeText := recipeToText r
  (match pq.dishName with
   | none => 0
   | some dish =>
     if dish <:+: r.title then (2/5 : ℚ)
     else if dish <:+: recipeText then 1/5
     else 0)
  + (if pq.ingredients = [] then 0
     else (3/10 : ℚ) *
       ((pq.ingredients.countP (fun ing => decide (ing <:+: recipeText)) : ℚ) /
        (pq.ingredients.length : ℚ)))
  + (if pq.categories = [] then 0
     else
       let recipeCats := pyStrList r.categories
       (1/5 : ℚ) *
         ((pq.categories.countP (fun cat =>
             decide (cat <:+: recipeCats) || decide (cat <:+: recipeText)) : ℚ) /
          (pq.categories.length : ℚ)))
  + (match pq.mealType with
     | none => 0
     | some meal => if meal <:+: recipeText then (1/10 : ℚ) else 0)

/-- `_calculate_rule_scores` (lines 417-459): raw scores for all
recipes, then divided by the maximum when it is positive. -/
def memRuleScores (pq : ParsedQuery) (recipes : List MemRecipe) : List ℚ :=
  let scores := recipes.map (memRuleScoreRaw pq)
  let m := scores.foldr max 0
  if 0 < m then scores.map (fun s => s / m) else scores

/-- One nutrient of `_nutrition_matches` (lines 484-508): a missing
value is skipped (`continue`), a present value must satisfy the
declared bounds. -/
def memBoundsOk (v : Option ℚ) (b : Bounds) : Bool :=
  match v with
  | none => true
  | some x =>
    (b.min?.all (fun m => decide (m ≤ x))) && (b.max?.all (fun M => decide (x ≤ M)))

/-- One nutrient key of `_nutrition_matches`: no constraint declared, or
the (missing-tolerant) value check passes. -/
def nutrientCheckMem (r : MemRecipe) (nm : NutritionMap) (n : Nutrient) : Bool :=
  match nm.get n with
  | none => true
  | some b => memBoundsOk (r.val n) b

/-- `_nutrition_matches` over the whole nutrition mapping. -/
def nutritionMatches (r : MemRecipe) (nm : NutritionMap) : Bool :=
  [Nutrient.calories, .protein, .fat, .sodium, .sugar, .saturates].all
    (nutrientCheckMem r nm)

/-- `_apply_constraints` (lines 461-482) for one recipe: 1 when the
recipe text contains no excluded ingredient and (when any nutrition
constraint is declared) `_nutrition_matches` holds, else 0. -/
def memConstraintMask (pq : ParsedQuery) (r : MemRecipe) : Bool :=
  (pq.excludedIngredients.all (fun exc => !(decide (exc <:+: recipeToText r)))) &&
  (if pq.nutrition.isEmpty then true else nutritionMatches r pq.nutrition)

/-- A scan-mode scoring entry before result formatting: index, recipe,
masked hybrid score, normalised rule score. -/
structure MemEntry where
  idx : Nat
  recipe : MemRecipe
  hybrid : ℚ
  rule : ℚ
deriving DecidableEq, Repr

/-- The per-index hybrid scores of `_search_memory` (lines 362-379):
`0.7 * rule + 0.3 * semantic` when TF-IDF is used, otherwise the rule
scores, multiplied by the 0/1 constraint mask. -/
def memEntries (semantic : Nat → ℚ) (useTfidf : Bool)
    (recipes : List MemRecipe) (pq : ParsedQuery) : List MemEntry :=
  ((recipes.zip (memRuleScores pq recipes)).enum).map (fun p =>
    let i := p.1
    let r := p.2.1
    let rs := p.2.2
    let h0 := if useTfidf then (7/10 : ℚ) * rs + (3/10 : ℚ) * semantic i else rs
    ⟨i, r, if memConstraintMask pq r then h0 else 0, rs⟩)

/-- A scan-mode search result: recipe index (published as `id`), the
recipe, and the rounded published scores. -/
structure MemResult where
  idx : Nat
  recipe : MemRecipe
  score : ℚ
  ruleScore : ℚ
deriving DecidableEq, Repr

/-- `RecipeMatcher._search_memory` (lines 346-415): rank all recipes by
the masked hybrid score, take the top `max_results * 3` indices, keep
those with positive score, stop after `max_results` and format. -/
def searchMemory (semantic : Nat → ℚ) (useTfidf : Bool)
    (recipes : List MemRecipe) (pq : ParsedQuery) (maxResults : Nat) : List MemResult :=
  let sorted := sortByDesc (fun e => e.hybrid) (memEntries semantic useTfidf recipes pq)
  (((sorted.take (maxResults * 3)).filter (fun e => decide (0 < e.hybrid))).take
    maxResults).map
    (fun e => ⟨e.idx, e.recipe, pyRound e.hybrid 3, pyRound e.rule 3⟩)

/-- Witness data for the indexed-mode claims: a single recipe passing
all filters for a matching query with an excluded ingredient. -/
def wRecipe : Recipe :=
  ⟨1, lit "apple pie", lit "apple pie apple pie apple sugar cinnamon dessert",
   [lit "apple", lit "sugar"], [lit "dessert"],
   some 320, some 3, some 12, some 150, some 30, some 6⟩

def wPQ : ParsedQuery :=
  ⟨some (lit "pie"), [lit "apple"], [lit "onion"], [], none, NutritionMap.empty⟩

def wMatch : ScoredMatch := (searchDatabase [wRecipe] wPQ 10 0).headD ⟨wRecipe, 0, 0⟩

/-- Scan-mode counterexample data for C1: one recipe containing "apple"
but not "banana", and a query requiring both. -/
def c1Recipe : MemRecipe :=
  ⟨lit "apple cake", [lit "apple"], [], [], none, none, none, none, none, none⟩

def c1PQ : ParsedQuery :=
  ⟨none, [lit "apple", lit "banana"], [], [], none, NutritionMap.empty⟩

def wMemRecipe : MemRecipe :=
  ⟨lit "apple cake", [lit "apple"], [], [], none, none, none, none, none, none⟩

/-- Witness nutrition map: a declared protein minimum of 15 g. -/
def wNM : NutritionMap := ⟨none, some ⟨some 15, none⟩, none, none, none, none⟩

/-- Counterexample data for the normalised scan-mode score: recipe `c6C`
("c", with ingredients a and b) and recipe `c6E` ("pie", with
ingredient b). -/
def c6C : MemRecipe :=
  ⟨lit "c", [lit "a", lit "b"], [], [], none, none, none, none, none, none⟩

def c6E : MemRecipe :=
  ⟨lit "pie", [lit "b"], [], [], none, none, none, none, none, none⟩

def c6PQ1 : ParsedQuery := ⟨some (lit "pie"), [lit "a"], [], [], none, NutritionMap.empty⟩

def c6PQ2 : ParsedQuery :=
  ⟨some (lit "pie"), [lit "a", lit "b"], [], [], none, NutritionMap.empty⟩

/-! ## Query parser: vocabulary (`config/vocabulary.py`) -/
/-- `COMMON_INGREDIENTS` (config/vocabulary.py), in source order. -/
def commonIngredients : List Str :=
  [lit "chicken",
   lit "chicken breast",
   lit "chicken thigh",
   lit "beef",
   lit "ground beef",
   lit "steak",
   lit "lamb",
   lit "turkey",
   lit "fish",
   lit "salmon",
   lit "tuna",
   lit "shrimp",
   lit "prawns",
   lit "crab",
   lit "lobster",
   lit "scallops",
   lit "cod",
   lit "tilapia",
   lit "tofu",
   lit "tempeh",
   lit "tomato",
   lit "tomatoes",
   lit "onion",
   lit "onions",
   lit "garlic",
   lit "potato",
   lit "potatoes",
   lit "carrot",
   lit "carrots",
   lit "celery",
   lit "cucumber",
   lit "zucchini",
   lit "squash",
   lit "bell pepper",
   lit "peppers",
   lit "jalape√±o",
   lit "eggplant",
   lit "broccoli",
   lit "cauliflower",
   lit "spinach",
   lit "kale",
   lit "lettuce",
   lit "cabbage",
   lit "mushrooms",
   lit "corn",
   lit "peas",
   lit "green beans",
   lit "asparagus",
   lit "avocado",
   lit "beets",
   lit "beans",
   lit "black beans",
   lit "kidney beans",
   lit "chickpeas",
   lit "lentils",
   lit "rice",
   lit "pasta",
   lit "noodles",
   lit "bread",
   lit "flour",
   lit "oats",
   lit "quinoa",
   lit "cheese",
   lit "cheddar",
   lit "mozzarella",
   lit "parmesan",
   lit "feta",
   lit "cream cheese",
   lit "milk",
   lit "cream",
   lit "butter",
   lit "yogurt",
   lit "egg",
   lit "eggs",
   lit "apple",
   lit "banana",
   lit "orange",
   lit "lemon",
   lit "lime",
   lit "strawberry",
   lit "blueberry",
   lit "mango",
   lit "pineapple",
   lit "peach",
   lit "grape",
   lit "coconut",
   lit "almonds",
   lit "walnuts",
   lit "peanuts",
   lit "cashews",
   lit "pistachios",
   lit "pecans",
   lit "sunflower seeds",
   lit "sesame seeds",
   lit "chia seeds",
   lit "salt",
   lit "pepper",
   lit "basil",
   lit "oregano",
   lit "thyme",
   lit "rosemary",
   lit "parsley",
   lit "cilantro",
   lit "mint",
   lit "dill",
   lit "cinnamon",
   lit "cumin",
   lit "paprika",
   lit "turmeric",
   lit "ginger",
   lit "garlic powder",
   lit "onion powder",
   lit "chili powder",
   lit "curry powder",
   lit "olive oil",
   lit "vegetable oil",
   lit "coconut oil",
   lit "sesame oil",
   lit "soy sauce",
   lit "vinegar",
   lit "honey",
   lit "maple syrup",
   lit "mustard",
   lit "ketchup",
   lit "mayonnaise",
   lit "hot sauce",
   lit "sriracha",
   lit "sugar",
   lit "brown sugar",
   lit "vanilla",
   lit "chocolate",
   lit "cocoa",
   lit "baking powder",
   lit "baking soda",
   lit "yeast"]

/-- `DISH_NAMES` (config/vocabulary.py), in source order. -/
def dishNames : List Str :=
  [lit "pizza",
   lit "pasta",
   lit "lasagna",
   lit "spaghetti",
   lit "risotto",
   lit "carbonara",
   lit "taco",
   lit "burrito",
   lit "enchilada",
   lit "quesadilla",
   lit "nachos",
   lit "fajita",
   lit "sushi",
   lit "ramen",
   lit "pad thai",
   lit "stir fry",
   lit "fried rice",
   lit "curry",
   lit "tikka masala",
   lit "biryani",
   lit "tandoori",
   lit "korma",
   lit "vindaloo",
   lit "burger",
   lit "sandwich",
   lit "wrap",
   lit "salad",
   lit "soup",
   lit "stew",
   lit "chili",
   lit "omelette",
   lit "frittata",
   lit "pancake",
   lit "waffle",
   lit "smoothie",
   lit "cake",
   lit "pie",
   lit "cookie",
   lit "brownie",
   lit "muffin",
   lit "cheesecake",
   lit "falafel",
   lit "hummus",
   lit "shawarma",
   lit "kebab",
   lit "gyro",
   lit "paella",
   lit "gumbo",
   lit "jambalaya",
   lit "casserole",
   lit "pot pie"]

/-- `NEGATION_WORDS` (config/vocabulary.py); a Python set consumed only through membership tests, so order is immaterial (listed sorted). -/
def negationWords : List Str :=
  [lit "and no",
   lit "avoid",
   lit "but no",
   lit "do not",
   lit "does not",
   (lit "doesn" ++ [quoteChar] ++ lit "t"),
   lit "doesnt",
   (lit "don" ++ [quoteChar] ++ lit "t"),
   lit "dont",
   lit "except",
   lit "exclude",
   lit "free",
   lit "hold",
   lit "leave out",
   lit "minus",
   lit "never",
   lit "no",
   lit "none",
   lit "not",
   lit "skip",
   lit "without"]

/-- The `skip_words` literal of `QueryParser._extract_ingredients` (query_parser.py lines 110-114), before the dish names are added. -/
def skipWordsBase : List Str :=
  [lit "meal",
   lit "recipe",
   lit "dish",
   lit "food",
   lit "calorie",
   lit "calories",
   lit "protein",
   lit "quick",
   lit "easy",
   lit "healthy",
   lit "high",
   lit "low",
   lit "breakfast",
   lit "lunch",
   lit "dinner",
   lit "vegetarian",
   lit "vegan",
   lit "want",
   lit "need",
   lit "find",
   lit "make"]

/-- `skip_words` after `skip_words.update(DISH_NAMES)` (line 115); a set
consumed only through membership tests. -/
def skipWords : List Str := skipWordsBase ++ dishNames

/-! ## Query parser: `_extract_ingredients` (query_parser.py lines 104-163)

The negation regular expressions (lines 118-136) are applied by
`re.finditer`; the sequence of captured phrases they produce is kept
abstract (`captures`): every invariant below holds for every capture
sequence, in particular the one the source's patterns yield.  The
resolution, deduplication, negation-window and capping logic is
embedded from the source. -/
/-- Python `str.find` for a substring already known (or not) to occur:
first index at which `needle` starts in `hay` (`hay.length` when
absent; the source only uses the index after an `in` check). -/
def strFind (hay needle : Str) : Nat :=
  match hay with
  | [] => 0
  | _ :: t => if needle <+: hay then 0 else 1 + strFind t needle

/-- The inner loop body of the exclusion resolution (lines 142-145): a
captured phrase resolves to a known ingredient by substring containment
in either direction; skip duplicates and stop words. -/
def resolveIngStep (excitem : Str) (excluded : List Str) (ing : Str) : List Str :=
  if (excitem <:+: ing ∨ ing <:+: excitem) ∧ ing ∉ excluded ∧ ing ∉ skipWords
  then excluded ++ [ing] else excluded

/-- Resolution of one captured phrase against the ingredient list. -/
def resolveStep (excitem : Str) (excluded : List Str) : List Str :=
  commonIngredients.foldl (resolveIngStep excitem) excluded

/-- The exclusion list built from all captured phrases, in match order
(lines 139-145). -/
def resolveExclusions (captures : List Str) : List Str :=
  captures.foldl (fun exc item => resolveStep item exc) []

/-- The inclusion loop body (lines 148-161): an ingredient found in the
query that is not a dish name is added unless a negation word occurs in
the 30-character window before its first occurrence, or it was already
excluded, or already included. -/
def includeStep (query : Str) (excluded : List Str) (included : List Str)
    (ingredient : Str) : List Str :=
  if ingredient <:+: query ∧ ingredient ∉ dishNames then
    let ingPos := strFind query ingredient
    let context := (query.take ingPos).drop (ingPos - 30)
    let isNegated : Prop :=
      (negationWords.any (fun neg => decide (neg <:+: context)) = true) ∨
      ingredient ∈ excluded
    if ¬isNegated ∧ ingredient ∉ included then included ++ [ingredient] else included
  else included

/-- The inclusion list (lines 148-161). -/
def findIncluded (query : Str) (excluded : List Str) : List Str :=
  commonIngredients.foldl (includeStep query excluded) []

/-- `QueryParser._extract_ingredients`: (included, excluded), each capped
at 10 (line 163). -/
def extractIngredients (captures : List Str) (query : Str) : List Str × List Str :=
  let excluded := resolveExclusions captures
  let included := findIncluded query excluded
  (included.take 10, excluded.take 10)

/-! ## Query parser: `_extract_nutrition` (query_parser.py lines 165-215)

The five numeric-constraint regular expressions are embedded as
anchored parsers with ordered (backtracking) alternations; `re.finditer`
is the left-to-right, non-overlapping scan `findAllMatches`.  The
character classes of the patterns (digits, spaces) are disjoint from
the keywords that follow them, so their greedy deterministic embedding
agrees with the regex engine on the texts at hand. -/
/-- Digit run, base-10 value (regex `(\d+)`, greedy). -/
def natOfDigits (ds : Str) : Nat :=
  ds.foldl (fun n c => 10 * n + (c.toNat - 48)) 0

def pDigits (s : Str) : Option (Nat × Str) :=
  let ds := s.takeWhile Char.isDigit
  if ds = [] then none
  else some (natOfDigits ds, s.dropWhile Char.isDigit)

/-- Literal match (regex literal text), anchored. -/
def pLit (w : Str) (s : Str) : Option Str :=
  if w <+: s then some (s.drop w.length) else none

/-- Regex `\s*` (the queries are space-separated). -/
def pWS (s : Str) : Str := s.dropWhile (fun c => c = ' ')

/-- Regex `\s+`. -/
def pWS1 (s : Str) : Option Str :=
  match s with
  | ' ' :: _ => some (s.dropWhile (fun c => c = ' '))
  | _ => none

/-- Ordered alternation over literal words (regex `(w1|w2|...)`). -/
def pAlt (ws : List Str) (s : Str) : List Str := ws.filterMap (fun w => pLit w s)

/-- Regex `(?:grams?|g)?`: alternatives in preference order, then the
empty option. -/
def pUnitOpt (s : Str) : List Str :=
  pAlt [lit "grams", lit "gram", lit "g"] s ++ [s]

/-- Regex `(?:of\s+)?`. -/
def pOfOpt (s : Str) : List Str :=
  (match pLit (lit "of") s with
   | some s2 => match pWS1 s2 with
     | some s3 => [s3]
     | none => []
   | none => []) ++ [s]

/-- Capture group `(protein|fat|sodium)`. -/
def pNutrientPFS (s : Str) : Option (Nutrient × Str) :=
  match pLit (lit "protein") s with
  | some s2 => some (.protein, s2)
  | none =>
    match pLit (lit "fat") s with
    | some s2 => some (.fat, s2)
    | none =>
      match pLit (lit "sodium") s with
      | some s2 => some (.sodium, s2)
      | none => none

/-- Capture group `(calories?|cal)`; the source maps every variant to the
`calories` key. -/
def pCalWord (s : Str) : Option Str :=
  match pLit (lit "calories") s with
  | some s2 => some s2
  | none =>
    match pLit (lit "calorie") s with
    | some s2 => some s2
    | none => pLit (lit "cal") s

/-- Pattern 1: `at least (\d+)\s*(?:grams?|g)?\s*(?:of\s+)?(protein|fat|sodium)`. -/
def matchAtLeastPFS (s : Str) : Option (Nat × Nutrient × Str) :=
  match pLit (lit "at least ") s with
  | none => none
  | some s1 =>
    match pDigits s1 with
    | none => none
    | some (v, s2) =>
      ((pUnitOpt (pWS s2)).flatMap (fun s4 =>
        (pOfOpt (pWS s4)).filterMap (fun s6 =>
          (pNutrientPFS s6).map (fun p => (v, p.1, p.2))))).head?

/-- Pattern 2: `at least (\d+)\s*(calories?|cal)`. -/
def matchAtLeastCal (s : Str) : Option (Nat × Nutrient × Str) :=
  match pLit (lit "at least ") s with
  | none => none
  | some s1 =>
    match pDigits s1 with
    | none => none
    | some (v, s2) =>
      (pCalWord (pWS s2)).map (fun rest => (v, .calories, rest))

/-- Pattern 3: `(?:more than|over)\s*(\d+)\s*(?:grams?|g)?\s*(?:of\s+)?(protein|fat|sodium)`. -/
def matchMorePFS (s : Str) : Option (Nat × Nutrient × Str) :=
  ((pAlt [lit "more than", lit "over"] s).flatMap (fun s1 =>
    match pDigits (pWS s1) with
    | none => []
    | some (v, s2) =>
      (pUnitOpt (pWS s2)).flatMap (fun s4 =>
        (pOfOpt (pWS s4)).filterMap (fun s6 =>
          (pNutrientPFS s6).map (fun p => (v, p.1, p.2)))))).head?

/-- Pattern 4: `(?:less than|under)\s*(\d+)\s*(?:grams?|g)?\s*(?:of\s+)?(protein|fat|sodium)`. -/
def matchLessPFS (s : Str) : Option (Nat × Nutrient × Str) :=
  ((pAlt [lit "less than", lit "under"] s).flatMap (fun s1 =>
    match pDigits (pWS s1) with
    | none => []
    | some (v, s2) =>
      (pUnitOpt (pWS s2)).flatMap (fun s4 =>
        (pOfOpt (pWS s4)).filterMap (fun s6 =>
          (pNutrientPFS s6).map (fun p => (v, p.1, p.2)))))).head?

/-- Pattern 5: `(?:less than|under)\s*(\d+)\s*(calories?|cal)`. -/
def matchLessCal (s : Str) : Option (Nat × Nutrient × Str) :=
  ((pAlt [lit "less than", lit "under"] s).filterMap (fun s1 =>
    match pDigits (pWS s1) with
    | none => none
    | some (v, s2) =>
      (pCalWord (pWS s2)).map (fun rest => (v, Nutrient.calories, rest)))).head?

/-- `re.finditer`: scan left to right, trying the anchored pattern at
each position; on a match, continue after its end (every pattern
consumes at least one character). -/
def findAllAux (p : Str → Option (Nat × Nutrient × Str)) :
    Nat → Str → List (Nat × Nutrient)
  | 0, _ => []
  | _, [] => []
  | fuel + 1, s@(_ :: rest) =>
    match p s with
    | some (v, n, rem) => (v, n) :: findAllAux p fuel rem
    | none => findAllAux p fuel rest

def findAllMatches (p : Str → Option (Nat × Nutrient × Str)) (s : Str) :
    List (Nat × Nutrient) :=
  findAllAux p (s.length + 1) s

/-- `nutrition[nutrient] = {constraint_type: value}`: replace the whole
entry for the nutrient (query_parser.py line 186). -/
def NutritionMap.setEntry (nm : NutritionMap) : Nutrient → Bounds → NutritionMap
  | .calories, b => { nm with calories := some b }
  | .protein, b => { nm with protein := some b }
  | .fat, b => { nm with fat := some b }
  | .sodium, b => { nm with sodium := some b }
  | .sugar, b => { nm with sugar := some b }
  | .saturates, b => { nm with saturates := some b }

/-- Apply one pattern's matches in order; `isMin` selects the
constraint type. -/
def applyNumericHits (isMin : Bool) (hits : List (Nat × Nutrient))
    (nm : NutritionMap) : NutritionMap :=
  hits.foldl (fun nm p =>
    nm.setEntry p.2 (if isMin then ⟨some (p.1 : ℚ), none⟩ else ⟨none, some (p.1 : ℚ)⟩)) nm

/-- The numeric-constraint pass (lines 169-186), patterns in source
order. -/
def numericPass (q : Str) : NutritionMap :=
  let nm := applyNumericHits true (findAllMatches matchAtLeastPFS q) NutritionMap.empty
  let nm := applyNumericHits true (findAllMatches matchAtLeastCal q) nm
  let nm := applyNumericHits true (findAllMatches matchMorePFS q) nm
  let nm := applyNumericHits false (findAllMatches matchLessPFS q) nm
  let nm := applyNumericHits false (findAllMatches matchLessCal q) nm
  nm

/-- `nutrition.setdefault(n, {})['min'] = v`: the nutrient entry is kept
(or created empty), then its `min` key is overwritten. -/
def Bounds.withMin (b? : Option Bounds) (v : ℚ) : Option Bounds :=
  match b? with
  | none => some ⟨some v, none⟩
  | some b => some ⟨some v, b.max?⟩

/-- `nutrition.setdefault(n, {})['max'] = v`. -/
def Bounds.withMax (b? : Option Bounds) (v : ℚ) : Option Bounds :=
  match b? with
  | none => some ⟨none, some v⟩
  | some b => some ⟨b.min?, some v⟩

def NutritionMap.setMin (nm : NutritionMap) : Nutrient → ℚ → NutritionMap
  | .calories, v => { nm with calories := Bounds.withMin nm.calories v }
  | .protein, v => { nm with protein := Bounds.withMin nm.protein v }
  | .fat, v => { nm with fat := Bounds.withMin nm.fat v }
  | .sodium, v => { nm with sodium := Bounds.withMin nm.sodium v }
  | .sugar, v => { nm with sugar := Bounds.withMin nm.sugar v }
  | .saturates, v => { nm with saturates := Bounds.withMin nm.saturates v }

def NutritionMap.setMax (nm : NutritionMap) : Nutrient → ℚ → NutritionMap
  | .calories, v => { nm with calories := Bounds.withMax nm.calories v }
  | .protein, v => { nm with protein := Bounds.withMax nm.protein v }
  | .fat, v => { nm with fat := Bounds.withMax nm.fat v }
  | .sodium, v => { nm with sodium := Bounds.withMax nm.sodium v }
  | .sugar, v => { nm with sugar := Bounds.withMax nm.sugar v }
  | .saturates, v => { nm with saturates := Bounds.withMax nm.saturates v }

/-- `any of the phrases occurs in the query` (substring test). -/
def hasAny (q : Str) (ws : List Str) : Bool :=
  ws.any (fun w => decide (w <:+: q))

/-- The modifier pass (lines 188-213), in source order. -/
def applyModifiers (q : Str) (nm0 : NutritionMap) : NutritionMap :=
  let nm := if hasAny q [lit "high protein", lit "high-protein", lit "protein rich"]
            then nm0.setMin .protein 15 else nm0
  let nm := if hasAny q [lit "high calorie", lit "high-calorie", lit "calorie rich"]
            then nm.setMin .calories 400 else nm
  let nm := if hasAny q [lit "high fat", lit "high-fat"]
            then nm.setMin .fat 15 else nm
  let nm := if hasAny q [lit "low protein", lit "low-protein"]
            then nm.setMax .protein 10 else nm
  let nm := if hasAny q [lit "low fat", lit "low-fat"]
            then nm.setMax .fat 10 else nm
  let nm := if hasAny q [lit "low calorie", lit "low-calorie"] ∨ lit "light" ∈ pyWords q
            then nm.setMax .calories 300 else nm
  let nm := if hasAny q [lit "low sodium", lit "low-sodium", lit "low salt"]
            then nm.setMax .sodium 400 else nm
  let nm := if hasAny q [lit "low sugar", lit "low-sugar", lit "sugar free"]
            then nm.setMax .sugar 5 else nm
  nm

/-- `QueryParser._extract_nutrition`. -/
def extractNutrition (q : Str) : NutritionMap :=
  applyModifiers q (numericPass q)

/-- The C4 query: an explicit numeric protein minimum followed by the
modifier phrase. -/
def c4Q : Str := lit "at least 30 grams of protein and high protein"

/-! ## Similarity engine (`core/similarity_engine.py`)

The TF-IDF text similarity (scikit-learn) and the exponential-decay
nutrition similarity (`np.exp`, real-valued) are external collaborators;
they enter the embedding as oracles `tsim` (target, candidate list,
candidate index) and `nsim` (target, candidate).  The candidate
generation, seed lookup, score combination, `min_score` filtering,
sorting and truncation are embedded from the source. -/
/-- Ingredient keyword patterns of `_get_candidate_recipes` (lines
137-149): per ingredient (first 5), the words longer than 3 characters
not starting with a digit, first 2 of each; de-duplicated (Python uses
an unordered `set`; the order is immaterial to the claims) and capped
at 10. -/
def ingredientPatterns (target : Recipe) : List Str :=
  let pats := (target.ingredients.take 5).flatMap (fun ing =>
    ((pyWords ing).filter (fun w =>
      decide (3 < w.length) &&
      !(match w.head? with | some c => c.isDigit | none => false))).take 2)
  pats.dedup.take 10

/-- `_get_candidate_recipes` (lines 126-172): exclude the seed itself,
require a shared ingredient keyword in the search text (when any
pattern exists), and require calories within ±50% of the seed's when
the seed has positive calorie data (an SQL comparison, so a `NULL`
calorie column is excluded); cap at `limit` in source order (the query
has no ORDER BY). -/
def getCandidateRecipes (db : List Recipe) (target : Recipe) (limit : Nat) :
    List Recipe :=
  let patterns := ingredientPatterns target
  (db.filter (fun r =>
    decide (r.id ≠ target.id) &&
    (if patterns = [] then true
     else patterns.any (fun p => decide (p <:+: r.searchText))) &&
    (match target.calories with
     | some c =>
       if 0 < c then
         match r.calories with
         | some v => decide (c * (1/2) ≤ v) && decide (v ≤ c * (3/2))
         | none => false
       else true
     | none => true))).take limit

/-- `_find_similar_recipes` (lines 73-124): generate candidates (capped
at `limit * 10`), combine `0.7 * text + 0.3 * nutrition`, keep scores
at least `min_score`, sort descending.  The per-result reason strings
are presentational and omitted. -/
def findSimilarRecipes (tsim : Recipe → List Recipe → Nat → ℚ)
    (nsim : Recipe → Recipe → ℚ) (db : List Recipe) (target : Recipe)
    (limit : Nat) (minScore : ℚ) : List (Recipe × ℚ) :=
  let candidates := getCandidateRecipes db target (limit * 10)
  if candidates = [] then []
  else
    let results := candidates.enum.filterMap (fun p =>
      let score := (7/10 : ℚ) * tsim target candidates p.1 + (3/10 : ℚ) * nsim target p.2
      if minScore ≤ score then some (p.2, score) else none)
    sortByDesc (fun x => x.2) results

/-- `SimilarityEngine.find_similar` (lines 26-71): look up the seed by
id (first row with that id); empty result when absent; otherwise rank
with the tripled inner limit and return the top `limit`. -/
def findSimilar (tsim : Recipe → List Recipe → Nat → ℚ)
    (nsim : Recipe → Recipe → ℚ) (db : List Recipe) (recipeId limit : Nat)
    (minScore : ℚ) : List (Recipe × ℚ) :=
  match db.find? (fun r => decide (r.id = recipeId)) with
  | none => []
  | some target => (findSimilarRecipes tsim nsim db target (limit * 3) minScore).take limit

/-! ## Meal plan assistant (`core/meal_planner.py`)

Randomness enters in three places: `ORDER BY random()` in the
candidate query, `random.choice` at low variety weight, and
`random.random()` in the variety loop.  They are modelled as oracles
indexed by day, slot and (for the shuffle) whether the call is the
relaxed fallback: `shuffleO day slot isFallback` (a permutation),
`pickO day slot` (an element of its nonempty argument) and
`randO day slot candidateIndex`.  Every theorem below holds for all
oracles, hence for the library's generators.  The calendar date string
(`datetime.now`) is presentational and omitted. -/
/-- The preference flags consumed by `_build_meal_constraints`. -/
structure Preferences where
  vegetarian : Bool
  lowCarb : Bool
  highProtein : Bool
  noDairy : Bool
  noGluten : Bool
  noNuts : Bool
deriving DecidableEq, Repr

/-- `nutrition_goals.get(key, default)` over the goals dict. -/
def goalsGet (goals : List (String × ℚ)) (key : String) (dflt : ℚ) : ℚ :=
  (goals.lookup key).getD dflt

/-- The constraint dict built by `_build_meal_constraints` (lines
180-220).  `carbMax` is set from the low-carb preference but never read
by `_get_meal_candidates` (faithful to the source). -/
structure Constraints where
  mealType : Option Str
  calories : Option Bounds
  proteinMin : Option ℚ
  vegetarian : Bool
  carbMax : Option ℚ
  excludedIngredients : List Str
deriving Repr

/-- `_build_meal_constraints`. -/
def buildMealConstraints (mealType : Str) (prefs : Preferences)
    (goals : List (String × ℚ)) (caloriesPerMeal dayCalories dailyCalories : ℚ) :
    Constraints :=
  let remaining := dailyCalories - dayCalories
  let cal : Option Bounds :=
    if 0 < remaining then
      some ⟨some (max 50 (caloriesPerMeal * (7/10))),
            some (min remaining (caloriesPerMeal * (13/10)))⟩
    else none
  let proteinMin : Option ℚ :=
    if 100 ≤ goalsGet goals "protein" 0 ∧
       (mealType = lit "breakfast" ∨ mealType = lit "lunch" ∨ mealType = lit "dinner")
    then some 15 else none
  let proteinMin := if prefs.highProtein then some 20 else proteinMin
  let carbMax : Option ℚ := if prefs.lowCarb then some 30 else none
  let excluded :=
    (if prefs.noDairy then
      [lit "milk", lit "cheese", lit "butter", lit "cream", lit "yogurt"] else [])
    ++ (if prefs.noGluten then [lit "flour", lit "wheat", lit "bread", lit "pasta"] else [])
    ++ (if prefs.noNuts then [lit "peanut", lit "almond", lit "walnut", lit "cashew"] else [])
  ⟨some mealType, cal, proteinMin, prefs.vegetarian, carbMax, excluded⟩

/-- The relaxed fallback constraints `{'meal_type': meal_type}`. -/
def fallbackConstraints (mealType : Str) : Constraints :=
  ⟨some mealType, none, none, false, none, []⟩

/-- The SQL filter of `_get_meal_candidates` (lines 222-273): not
already used, meal type in search text, calorie band, protein floor,
vegetarian keyword, exclusions, and positive non-NULL calories; then
`ORDER BY random()` (the shuffle oracle) and `LIMIT`. -/
def mealCandidateFilter (c : Constraints) (used : List Nat) (r : Recipe) : Bool :=
  decide (r.id ∉ used) &&
  (match c.mealType with
   | none => true
   | some mt => decide (mt <:+: r.searchText)) &&
  (match c.calories with
   | none => true
   | some b =>
     (match b.min? with
      | none => true
      | some m => match r.calories with
        | some v => decide (m ≤ v)
        | none => false) &&
     (match b.max? with
      | none => true
      | some M => match r.calories with
        | some v => decide (v ≤ M)
        | none => false)) &&
  (match c.proteinMin with
   | none => true
   | some m => match r.protein with
     | some v => decide (m ≤ v)
     | none => false) &&
  (if c.vegetarian then decide ((lit "vegetarian") <:+: r.searchText) else true) &&
  (c.excludedIngredients.all (fun exc => !(decide (exc <:+: r.searchText)))) &&
  (match r.calories with
   | some v => decide (0 < v)
   | none => false)

def getMealCandidates (db : List Recipe) (shuffle : List Recipe → List Recipe)
    (c : Constraints) (used : List Nat) (limit : Nat) : List Recipe :=
  (shuffle (db.filter (mealCandidateFilter c used))).take limit

/-- The main-ingredient-word heuristic (lines 151-152 and 304-305):
first word longer than 4 characters, else the first word, else empty. -/
def mainWord (ing : Str) : Str :=
  let ws := pyWords ing
  ((ws.find? (fun w => decide (4 < w.length))).getD (ws.headD []))

/-- The variety score of `_select_recipe_with_variety` (lines 295-314):
new main words minus half the repeated ones, over the first 5
ingredients, skipping empty main words. -/
def varietyScore (usedIng : Str → Nat) (r : Recipe) : ℚ :=
  if r.ingredients = [] then 0
  else
    let ws := (r.ingredients.take 5).map mainWord
    ((ws.countP (fun w => decide (w ≠ []) && decide (usedIng w = 0))) : ℚ)
    - ((ws.countP (fun w => decide (w ≠ []) && decide (usedIng w ≠ 0))) : ℚ) * (1/2)

/-- `_select_recipe_with_variety` (lines 275-324): random pick at low
variety weight; otherwise the arg-max of
`varietyScore * w + random * (1 - w)` starting from best score −1, with
`candidates[0]` as fallback when no candidate beats −1. -/
def selectRecipeWithVariety (pick : List Recipe → Recipe) (rnd : Nat → ℚ)
    (candidates : List Recipe) (usedIng : Str → Nat) (varietyWeight : ℚ) :
    Option Recipe :=
  match candidates with
  | [] => none
  | c0 :: _ =>
    if varietyWeight < 1/10 then some (pick candidates)
    else
      let res := candidates.enum.foldl (fun st p =>
        let totalScore := varietyScore usedIng p.2 * varietyWeight +
          rnd p.1 * (1 - varietyWeight)
        if st.2 < totalScore then (some p.2, totalScore) else st)
        ((none : Option Recipe), (-1 : ℚ))
      match res.1 with
      | some r => some r
      | none => some c0

/-- The nutrition snapshot attached to a placed meal (lines 131-138),
missing values defaulted to 0. -/
structure MealNutrition where
  calories : ℚ
  protein : ℚ
  fat : ℚ
  sodium : ℚ
  sugar : ℚ
  saturates : ℚ
deriving DecidableEq, Repr

def Recipe.mealNutrition (r : Recipe) : MealNutrition :=
  ⟨r.calories.getD 0, r.protein.getD 0, r.fat.getD 0,
   r.sodium.getD 0, r.sugar.getD 0, r.saturates.getD 0⟩

structure Meal where
  recipe : Recipe
  mealType : Str
  mealNumber : Nat
  nutrition : MealNutrition
deriving DecidableEq, Repr

structure DayPlan where
  day : Nat
  meals : List Meal
  dayCalories : ℚ
  dayProtein : ℚ
deriving DecidableEq, Repr

/-- `_get_meal_type_distribution` (lines 169-178). -/
def mealTypeDistribution (mealsPerDay : Nat) : List Str :=
  if mealsPerDay = 2 then [lit "breakfast", lit "dinner"]
  else if mealsPerDay = 3 then [lit "breakfast", lit "lunch", lit "dinner"]
  else if mealsPerDay = 4 then [lit "breakfast", lit "snack", lit "lunch", lit "dinner"]
  else [lit "breakfast", lit "lunch", lit "dinner"]

/-- Ingredient-usage tracking after a selection (lines 148-154). -/
def updateUsedIng (usedIng : Str → Nat) (r : Recipe) : Str → Nat :=
  (r.ingredients.take 5).foldl (fun m ing =>
    let mw := mainWord ing
    if mw ≠ [] then (fun w => if w = mw then m w + 1 else m w) else m) usedIng

/-- Per-day running state while slots are filled. -/
structure SlotState where
  meals : List Meal
  used : List Nat
  usedIng : Str → Nat
  dayCal : ℚ
  dayProt : ℚ

/-- One meal slot of `_generate_plan` (lines 103-154): build
constraints, query candidates, relax to meal-type-only when empty,
select with variety, and on success record the meal and update the
used-id set, the day totals and the ingredient counts; on exhaustion
skip the slot. -/
def doSlot (db : List Recipe)
    (shuffleO : Nat → Nat → Bool → List Recipe → List Recipe)
    (pickO : Nat → Nat → List Recipe → Recipe)
    (randO : Nat → Nat → Nat → ℚ)
    (prefs : Preferences) (goals : List (String × ℚ))
    (varietyWeight caloriesPerMeal dailyCalories : ℚ)
    (day : Nat) (st : SlotState) (slot : Nat × Str) : SlotState :=
  let constraints :=
    buildMealConstraints slot.2 prefs goals caloriesPerMeal st.dayCal dailyCalories
  let cands0 := getMealCandidates db (shuffleO day slot.1 false) constraints st.used 50
  let cands :=
    if cands0 = [] then
      getMealCandidates db (shuffleO day slot.1 true) (fallbackConstraints slot.2) st.used 20
    else cands0
  match selectRecipeWithVariety (pickO day slot.1) (randO day slot.1) cands
      st.usedIng varietyWeight with
  | none => st
  | some sel =>
    { meals := st.meals ++ [⟨sel, slot.2, slot.1 + 1, sel.mealNutrition⟩]
      used := st.used ++ [sel.id]
      usedIng := updateUsedIng st.usedIng sel
      dayCal := st.dayCal + sel.calories.getD 0
      dayProt := st.dayProt + sel.protein.getD 0 }

/-- Cross-day state: the plan so far, the used recipe ids, the
ingredient counts. -/
structure PlanState where
  plan : List DayPlan
  used : List Nat
  usedIng : Str → Nat

/-- One day of `_generate_plan` (lines 98-165): fill the slots in
order, then append the day with its rounded totals. -/
def doDay (db : List Recipe)
    (shuffleO : Nat → Nat → Bool → List Recipe → List Recipe)
    (pickO : Nat → Nat → List Recipe → Recipe)
    (randO : Nat → Nat → Nat → ℚ)
    (prefs : Preferences) (goals : List (String × ℚ))
    (varietyWeight caloriesPerMeal dailyCalories : ℚ)
    (mealTypes : List Str) (ps : PlanState) (day : Nat) : PlanState :=
  let st := mealTypes.enum.foldl
    (doSlot db shuffleO pickO randO prefs goals varietyWeight caloriesPerMeal
      dailyCalories day)
    ⟨[], ps.used, ps.usedIng, 0, 0⟩
  { plan := ps.plan ++ [⟨day, st.meals, pyRound st.dayCal 1, pyRound st.dayProt 1⟩]
    used := st.used
    usedIng := st.usedIng }

/-- `MealPlanAssistant._generate_plan` with the clamping of
`generate_meal_plan` (lines 51-52): days in [1,7], meals per day in
[2,4]. -/
def generatePlan (db : List Recipe)
    (shuffleO : Nat → Nat → Bool → List Recipe → List Recipe)
    (pickO : Nat → Nat → List Recipe → Recipe)
    (randO : Nat → Nat → Nat → ℚ)
    (days mealsPerDay : Nat) (prefs : Preferences)
    (goals : List (String × ℚ)) (varietyWeight : ℚ) : List DayPlan :=
  let days := max 1 (min days 7)
  let mealsPerDay := max 2 (min mealsPerDay 4)
  let mealTypes := mealTypeDistribution mealsPerDay
  let dailyCalories := goalsGet goals "calories" 2000
  let caloriesPerMeal := dailyCalories / (mealsPerDay : ℚ)
  (((List.range days).map (fun d => d + 1)).foldl
    (doDay db shuffleO pickO randO prefs goals varietyWeight caloriesPerMeal
      dailyCalories mealTypes)
    ⟨[], [], fun _ => 0⟩).plan

/-- All recipe ids placed anywhere in a plan, in order. -/
def planIds (plan : List DayPlan) : List Nat :=
  plan.flatMap (fun d => d.meals.map (fun m => m.recipe.id))

def mealIds (meals : List Meal) : List Nat := meals.map (fun m => m.recipe.id)

/-- The identity candidate ordering (a permutation oracle instance). -/
def idShuffle : Nat → Nat → Bool → List Recipe → List Recipe := fun _ _ _ l => l

/-- A deterministic `random.choice` instance: the head of the list. -/
def headPick : Nat → Nat → List Recipe → Recipe := fun _ _ l => l.headD wRecipe

/-! ## Claim C10: `_calculate_nutrition_summary` (lines 326-373) -/
def planMeals (plan : List DayPlan) : List Meal := plan.flatMap (fun d => d.meals)

/-- One entry of `goal_achievement`. -/
structure GoalEntry where
  target : ℚ
  actual : ℚ
  achievement : ℚ
deriving DecidableEq, Repr

/-- `total_nutrition[k]`: sum over every meal of the plan. -/
def totalNutr (plan : List DayPlan) (f : MealNutrition → ℚ) : ℚ :=
  ((planMeals plan).map (fun m => f m.nutrition)).sum

/-- `avg_nutrition[k] = round(total / num_days, 1)`. -/
def avgNutr (plan : List DayPlan) (f : MealNutrition → ℚ) : ℚ :=
  pyRound (totalNutr plan f / (plan.length : ℚ)) 1

/-- `avg_nutrition.get(nutrient, 0)`: the averages dict has exactly the
five keys below. -/
def avgGet (plan : List DayPlan) (nutrient : String) : ℚ :=
  if nutrient = "calories" then avgNutr plan (fun n => n.calories)
  else if nutrient = "protein" then avgNutr plan (fun n => n.protein)
  else if nutrient = "fat" then avgNutr plan (fun n => n.fat)
  else if nutrient = "sodium" then avgNutr plan (fun n => n.sodium)
  else if nutrient = "sugar" then avgNutr plan (fun n => n.sugar)
  else 0

/-- The `goal_achievement` mapping (lines 356-366): one entry per goal
with a strictly positive value, carrying the target, the actual
average, and `round(actual/target*100, 1)`. -/
def goalAchievement (plan : List DayPlan) (goals : List (String × ℚ)) :
    List (String × GoalEntry) :=
  goals.filterMap (fun p =>
    if 0 < p.2 then
      some (p.1, ⟨p.2, avgGet plan p.1, pyRound (avgGet plan p.1 / p.2 * 100) 1⟩)
    else none)

structure NutritionSummary where
  totalCalories : ℚ
  totalProtein : ℚ
  totalFat : ℚ
  totalSodium : ℚ
  totalSugar : ℚ
  avgCalories : ℚ
  avgProtein : ℚ
  avgFat : ℚ
  avgSodium : ℚ
  avgSugar : ℚ
  goalAchievement : List (String × GoalEntry)
  totalRecipes : Nat
deriving DecidableEq, Repr

/-- `MealPlanAssistant._calculate_nutrition_summary`. -/
def calcNutritionSummary (plan : List DayPlan) (goals : List (String × ℚ)) :
    NutritionSummary :=
  ⟨totalNutr plan (fun n => n.calories), totalNutr plan (fun n => n.protein),
   totalNutr plan (fun n => n.fat), totalNutr plan (fun n => n.sodium),
   totalNutr plan (fun n => n.sugar),
   avgNutr plan (fun n => n.calories), avgNutr plan (fun n => n.protein),
   avgNutr plan (fun n => n.fat), avgNutr plan (fun n => n.sodium),
   avgNutr plan (fun n => n.sugar),
   goalAchievement plan goals, (planMeals plan).length⟩

/-- Concrete witness plan and goals for C10. -/
def c10Plan : List DayPlan :=
  [⟨1, [⟨wRecipe, lit "breakfast", 1, wRecipe.mealNutrition⟩], 320, 3⟩]

def c10Goals : List (String × ℚ) := [("calories", 2000), ("sugar", 0)]

/-! ## Theorems -/

theorem length_dropWhile_le (p : Char → Bool) :
    ∀ l : Str, (l.dropWhile p).length ≤ l.length := by
  intro l
  induction l with
  | nil => simp
  | cons c cs ih =>
    by_cases h : p c
    · rw [List.dropWhile_cons_of_pos h]
      exact le_trans ih (Nat.le_succ _)
    · rw [List.dropWhile_cons_of_neg h]

theorem dropWhile_head_false {p : Char → Bool} :
    ∀ {l : Str} {d : Char} {ds : Str}, l.dropWhile p = d :: ds → p d = false := by
  intro l
  induction l with
  | nil => intro d ds h; simp at h
  | cons c cs ih =>
    intro d ds h
    by_cases hp : p c
    · rw [List.dropWhile_cons_of_pos hp] at h
      exact ih h
    · rw [List.dropWhile_cons_of_neg hp] at h
      injection h with h1 _
      rw [← h1]
      simpa using hp

/-- Each word produced by `pyWordsF` is nonempty, contains no space, and
occurs in the string flanked on each side by a string boundary or a
space character. -/
theorem pyWordsF_decomp :
    ∀ (n : Nat) (s : Str), s.length ≤ n → ∀ w ∈ pyWordsF n s,
      w ≠ [] ∧ ' ' ∉ w ∧
      ∃ pre post, s = pre ++ w ++ post ∧
        (pre = [] ∨ ∃ p, pre = p ++ [' ']) ∧
        (post = [] ∨ ∃ q, post = ' ' :: q) := by
  intro n
  induction n with
  | zero => intro s _ w hw; simp [pyWordsF] at hw
  | succ n ih =>
    intro s hs w hw
    match s with
    | [] => simp [pyWordsF] at hw
    | c :: cs =>
      simp only [pyWordsF] at hw
      by_cases hc : c = ' '
      · rw [if_pos hc] at hw
        have hlen : cs.length ≤ n := by
          simpa [Nat.succ_le_succ_iff] using hs
        obtain ⟨hne, hnsp, pre, post, heq, hpre, hpost⟩ := ih cs hlen w hw
        refine ⟨hne, hnsp, c :: pre, post, by simp [heq], ?_, hpost⟩
        right
        rcases hpre with h | ⟨p, hp⟩
        · exact ⟨[], by simp [h, hc]⟩
        · exact ⟨c :: p, by simp [hp]⟩
      · rw [if_neg hc] at hw
        rcases List.mem_cons.mp hw with hw | hw
        · subst hw
          refine ⟨by simp, ?_, [], cs.dropWhile (fun d => d ≠ ' '), ?_, Or.inl rfl, ?_⟩
          · intro hsp
            rcases List.mem_cons.mp hsp with h | h
            · exact hc h.symm
            · have := List.mem_takeWhile_imp h
              simp at this
          · simp [List.takeWhile_append_dropWhile]
          · rcases hdrop : cs.dropWhile (fun d => d ≠ ' ') with _ | ⟨d, ds⟩
            · exact Or.inl rfl
            · right
              refine ⟨ds, ?_⟩
              have hd := dropWhile_head_false hdrop
              simp at hd
              simp [hd]
        · have hlen : (cs.dropWhile (fun d => d ≠ ' ')).length ≤ n := by
            have h2 : cs.length ≤ n := by
              simpa [Nat.succ_le_succ_iff] using hs
            exact le_trans (length_dropWhile_le _ cs) h2
          obtain ⟨hne, hnsp, pre, post, heq, hpre, hpost⟩ :=
            ih (cs.dropWhile (fun d => d ≠ ' ')) hlen w hw
          have hsplit : cs = cs.takeWhile (fun d => d ≠ ' ') ++ cs.dropWhile (fun d => d ≠ ' ') :=
            (List.takeWhile_append_dropWhile (p := fun d => decide (d ≠ ' ')) (l := cs)).symm
          -- pre cannot be empty: the dropWhile result is empty or starts with a space,
          -- while w is nonempty and space-free.
          have hpre' : ∃ p, pre = p ++ [' '] := by
            rcases hpre with h | h
            · exfalso
              subst h
              rcases hdrop : cs.dropWhile (fun d => d ≠ ' ') with _ | ⟨d, ds⟩
              · rw [hdrop] at heq
                simp at heq
                exact hne heq.1
              · have hd := dropWhile_head_false hdrop
                simp at hd
                rcases w with _ | ⟨w0, ws⟩
                · exact hne rfl
                · rw [hdrop] at heq
                  simp at heq
                  apply hnsp
                  rw [← hd, heq.1]
                  exact List.mem_cons_self _ _
            · exact h
          obtain ⟨p, hp⟩ := hpre'
          refine ⟨hne, hnsp, c :: cs.takeWhile (fun d => d ≠ ' ') ++ pre, post, ?_, ?_, hpost⟩
          · calc c :: cs
                = c :: (cs.takeWhile (fun d => d ≠ ' ') ++ cs.dropWhile (fun d => d ≠ ' ')) := by
                  rw [← hsplit]
              _ = (c :: cs.takeWhile (fun d => d ≠ ' ') ++ pre) ++ w ++ post := by
                  rw [heq]; simp
          · right
            exact ⟨c :: cs.takeWhile (fun d => d ≠ ' ') ++ p, by simp [hp]⟩

/-- A whole word of a string, when padded with spaces on both sides, is an
infix of the space-padded string.  This is the bridge between the
source's `dish in title.split()` test and its
`f" {dish} " in f" {title} "` test. -/
theorem pyWords_pad_infix {w s : Str} (hw : w ∈ pyWords s) :
    (' ' :: w ++ [' ']) <:+: (' ' :: s ++ [' ']) := by
  obtain ⟨-, -, pre, post, heq, hpre, hpost⟩ :=
    pyWordsF_decomp s.length s le_rfl w hw
  subst heq
  rcases hpre with hpre | ⟨p, hp⟩
  · subst hpre
    rcases hpost with hpost | ⟨q, hq⟩
    · subst hpost
      simp
    · subst hq
      exact ⟨[], q ++ [' '], by simp⟩
  · subst hp
    rcases hpost with hpost | ⟨q, hq⟩
    · subst hpost
      exact ⟨' ' :: p, [], by simp⟩
    · subst hq
      exact ⟨' ' :: p, q ++ [' '], by simp⟩

theorem mem_insertDesc {α : Type} {key : α → ℚ} {a x : α} :
    ∀ {l : List α}, x ∈ insertDesc key a l ↔ x = a ∨ x ∈ l := by
  intro l
  induction l with
  | nil => simp [insertDesc]
  | cons b bs ih =>
    by_cases h : key a ≤ key b
    · simp only [insertDesc, if_pos h, List.mem_cons, ih]
      tauto
    · simp only [insertDesc, if_neg h, List.mem_cons]

theorem mem_sortByDesc {α : Type} {key : α → ℚ} {x : α} {l : List α} :
    x ∈ sortByDesc key l ↔ x ∈ l := by
  suffices h : ∀ (l acc : List α),
      x ∈ l.foldl (fun acc a => insertDesc key a acc) acc ↔ x ∈ acc ∨ x ∈ l by
    have := h l []
    simpa [sortByDesc] using this
  intro l
  induction l with
  | nil => intro acc; simp
  | cons b bs ih =>
    intro acc
    simp only [List.foldl_cons, ih, mem_insertDesc, List.mem_cons]
    tauto

/-- **C3.** The dish-name component fires exactly one tier, the first
satisfied in the priority order: exact title equality 100; whole-word
match scored 60/65/55 by first/last/interior position; phrase-boundary
match with no exact word 50; substring-only match in the title 35;
match only in the search text 20.  Stated as: the source's dish block
equals the spec's priority-ordered tier function on every input. -/
theorem claim_C3_dish_tiers (title searchText dish : Str) :
    dishScore title searchText dish = dishScoreSpec title searchText dish := by
  by_cases heq : title = dish
  · simp [dishScore, dishScoreSpec, heq]
  · by_cases hw : dish ∈ pyWords title
    · have hp := pyWords_pad_infix hw
      simp only [List.cons_append] at hp
      simp [dishScore, dishScoreSpec, heq, hw, hp]
    · by_cases hph : (' ' :: (dish ++ [' '])) <:+: (' ' :: (title ++ [' ']))
      · simp [dishScore, dishScoreSpec, heq, hw, hph]
      · simp [dishScore, dishScoreSpec, heq, hw, hph]

/-- Every hit returned by the indexed search passed the hard filters and
scored positive. -/
theorem mem_searchDatabase {db : List Recipe} {pq : ParsedQuery}
    {maxResults offset : Nat} {s : ScoredMatch}
    (h : s ∈ searchDatabase db pq maxResults offset) :
    dbFilter pq s.recipe = true ∧ 0 < calcRecipeScore s.recipe pq ∧ s.recipe ∈ db := by
  unfold searchDatabase at h
  have h1 := List.mem_of_mem_take h
  have h2 := List.mem_of_mem_drop h1
  rw [mem_sortByDesc] at h2
  obtain ⟨r, hr, heq⟩ := List.mem_filterMap.mp h2
  by_cases hs : 0 < calcRecipeScore r pq
  · rw [if_pos hs] at heq
    have hrec : s.recipe = r := by
      cases heq
      rfl
    have hrf := List.mem_of_mem_take hr
    rw [hrec]
    exact ⟨(List.mem_filter.mp hrf).2, hs, (List.mem_filter.mp hrf).1⟩
  · rw [if_neg hs] at heq
    cases heq

/-- Every scan-mode result comes from an entry with a positive masked
hybrid score; in particular its constraint mask is 1. -/
theorem mem_searchMemory {semantic : Nat → ℚ} {useTfidf : Bool}
    {recipes : List MemRecipe} {pq : ParsedQuery} {maxResults : Nat} {s : MemResult}
    (h : s ∈ searchMemory semantic useTfidf recipes pq maxResults) :
    memConstraintMask pq s.recipe = true := by
  unfold searchMemory at h
  obtain ⟨e, he, heq⟩ := List.mem_map.mp h
  have he1 := List.mem_of_mem_take he
  have he2 := List.mem_filter.mp he1
  have hpos : 0 < e.hybrid := by
    have := he2.2
    simpa using this
  have he3 := List.mem_of_mem_take he2.1
  rw [mem_sortByDesc] at he3
  obtain ⟨p, hp, hpe⟩ := List.mem_map.mp he3
  have hrec : s.recipe = e.recipe := by rw [← heq]
  rw [hrec]
  by_cases hm : memConstraintMask pq p.2.1 = true
  · have : e.recipe = p.2.1 := by rw [← hpe]
    rw [this]
    exact hm
  · exfalso
    have heh : e.hybrid = 0 := by
      rw [← hpe]
      simp [Bool.not_eq_true] at hm
      simp [hm]
    rw [heh] at hpos
    exact lt_irrefl 0 hpos

/-- The title is a prefix of `_recipe_to_text`'s output. -/
theorem title_prefix_recipeToText (r : MemRecipe) : r.title <+: recipeToText r := by
  unfold recipeToText joinSpace
  rcases h1 : r.ingredients with _ | _
  all_goals rcases h2 : r.directions with _ | _
  all_goals rcases h3 : r.categories with _ | _
  all_goals simp [List.intercalate, List.intersperse, List.prefix_append,
    List.flatten]

/-! ## Claims C1 and C2 -/
/-- **C1 (amended).** In indexed (database) mode every returned
`ScoredMatch` contains each required ingredient as a substring of its
title or its search text — AND semantics.  (In scan mode the claim
fails: see the counterexample.) -/
theorem claim_C1_indexed_and (db : List Recipe) (pq : ParsedQuery)
    (maxResults offset : Nat) :
    ∀ s ∈ searchDatabase db pq maxResults offset,
      ∀ ing ∈ pq.ingredients, ing <:+: s.recipe.title ∨ ing <:+: s.recipe.searchText := by
  intro s hs ing hing
  obtain ⟨hf, -, -⟩ := mem_searchDatabase hs
  have hok : dbIngredientsOk s.recipe pq.ingredients = true := by
    simp [dbFilter] at hf
    exact hf.1.2
  rw [dbIngredientsOk, List.all_eq_true] at hok
  have := hok ing hing
  simpa using this

theorem claim_C1_indexed_and_witness :
    wMatch ∈ searchDatabase [wRecipe] wPQ 10 0 ∧
    (lit "apple") ∈ wPQ.ingredients ∧
    ((lit "apple") <:+: wMatch.recipe.title ∨ (lit "apple") <:+: wMatch.recipe.searchText) :=
  ⟨by with_unfolding_all decide, by decide,
   claim_C1_indexed_and [wRecipe] wPQ 10 0 wMatch (by with_unfolding_all decide)
     (lit "apple") (by decide)⟩

/-- **C1 counterexample.** In scan mode, `_search_memory` returns the
"apple cake" recipe for a query requiring both "apple" and "banana",
although "banana" occurs in neither its title nor its search text:
required ingredients are never hard-filtered in scan mode. -/
theorem claim_C1_counterexample :
    ∃ s ∈ searchMemory (fun _ => 0) false [c1Recipe] c1PQ 10,
      ∃ ing ∈ c1PQ.ingredients,
        ¬ ing <:+: s.recipe.title ∧ ¬ ing <:+: recipeToText s.recipe := by
  with_unfolding_all decide

/-- **C2.** No returned match — indexed or scan mode — has an excluded
ingredient as a substring of its title or of its search text.  The
indexed half uses the data-model invariant that the (lower-cased)
title is a prefix of the precomputed `search_text` column (the
migration script builds `search_text` as title + title + ingredients +
categories); in scan mode the search text is recomputed by
`_recipe_to_text`, which starts with the title. -/
theorem claim_C2_excluded (db : List Recipe) (recipes : List MemRecipe)
    (pq : ParsedQuery) (semantic : Nat → ℚ) (useTfidf : Bool)
    (maxR offset maxR2 : Nat)
    (hinv : ∀ r ∈ db, r.title <+: r.searchText) :
    (∀ s ∈ searchDatabase db pq maxR offset, ∀ exc ∈ pq.excludedIngredients,
        ¬ exc <:+: s.recipe.title ∧ ¬ exc <:+: s.recipe.searchText)
    ∧ (∀ s ∈ searchMemory semantic useTfidf recipes pq maxR2,
        ∀ exc ∈ pq.excludedIngredients,
          ¬ exc <:+: s.recipe.title ∧ ¬ exc <:+: recipeToText s.recipe) := by
  constructor
  · intro s hs exc hexc
    obtain ⟨hf, -, hdb⟩ := mem_searchDatabase hs
    have hexok : dbExcludedOk s.recipe pq.excludedIngredients = true := by
      simp [dbFilter] at hf
      exact hf.1.1.1
    rw [dbExcludedOk, List.all_eq_true] at hexok
    have h1 := hexok exc hexc
    have hst : ¬ exc <:+: s.recipe.searchText := by
      simp at h1
      rcases h1 with h | h
      · exact h
      · exact h.2
    refine ⟨fun hc => hst ?_, hst⟩
    exact hc.trans (hinv s.recipe hdb).isInfix
  · intro s hs exc hexc
    have hmask := mem_searchMemory hs
    rw [memConstraintMask, Bool.and_eq_true] at hmask
    have hex := hmask.1
    rw [List.all_eq_true] at hex
    have htext : ¬ exc <:+: recipeToText s.recipe := by
      have := hex exc hexc
      simpa using this
    refine ⟨fun hc => htext ?_, htext⟩
    exact hc.trans (title_prefix_recipeToText s.recipe).isInfix

theorem claim_C2_excluded_witness :
    (∀ r ∈ [wRecipe], r.title <+: r.searchText) ∧
    ((∀ s ∈ searchDatabase [wRecipe] wPQ 10 0, ∀ exc ∈ wPQ.excludedIngredients,
        ¬ exc <:+: s.recipe.title ∧ ¬ exc <:+: s.recipe.searchText)
     ∧ (∀ s ∈ searchMemory (fun _ => 0) false [wMemRecipe] wPQ 10,
         ∀ exc ∈ wPQ.excludedIngredients,
           ¬ exc <:+: s.recipe.title ∧ ¬ exc <:+: recipeToText s.recipe)) :=
  ⟨by decide,
   claim_C2_excluded [wRecipe] [wMemRecipe] wPQ (fun _ => 0) false 10 0 10 (by decide)⟩

/-! ## Claim C5: missing-nutrition asymmetry -/
/-- **C5.** For a declared nutrition bound on nutrient `n`: a candidate
with a missing (`NULL`/`None`) value for `n` fails the indexed-mode
hard nutrition filter (and hence every indexed hit has the value
present), while the scan-mode `_nutrition_matches` skips the missing
value (the candidate passes whenever every other declared nutrient
check passes); and in both modes a present value violating a declared
min or max bound is rejected. -/
theorem claim_C5_nutrition_asymmetry (nm : NutritionMap) (n : Nutrient) (b : Bounds)
    (hdecl : nm.get n = some b) :
    (∀ r : Recipe, r.val n = none → dbNutritionOk r nm = false)
    ∧ (∀ (db : List Recipe) (pq : ParsedQuery) (maxR off : Nat), pq.nutrition = nm →
        ∀ s ∈ searchDatabase db pq maxR off, (s.recipe.val n).isSome)
    ∧ (∀ m : MemRecipe, m.val n = none →
        nutrientCheckMem m nm n = true ∧
        ((∀ n2 : Nutrient, n2 ≠ n → nutrientCheckMem m nm n2 = true) →
          nutritionMatches m nm = true))
    ∧ (∀ (v : ℚ) (r : Recipe), r.val n = some v →
        ((∃ lo, b.min? = some lo ∧ v < lo) ∨ (∃ hi, b.max? = some hi ∧ hi < v)) →
        dbNutritionOk r nm = false)
    ∧ (∀ (v : ℚ) (m : MemRecipe), m.val n = some v →
        ((∃ lo, b.min? = some lo ∧ v < lo) ∨ (∃ hi, b.max? = some hi ∧ hi < v)) →
        nutritionMatches m nm = false) := by
  have hdbNone : ∀ r : Recipe, r.val n = none → nutrientCheckDb r nm n = false := by
    intro r hval
    rw [nutrientCheckDb, hdecl, hval]
    rfl
  have hdbViol : ∀ (v : ℚ) (r : Recipe), r.val n = some v →
      ((∃ lo, b.min? = some lo ∧ v < lo) ∨ (∃ hi, b.max? = some hi ∧ hi < v)) →
      nutrientCheckDb r nm n = false := by
    intro v r hval hviol
    rw [nutrientCheckDb, hdecl, hval]
    rcases hviol with ⟨lo, hlo, hv⟩ | ⟨hi, hhi, hv⟩
    · simp [dbBoundsOk, hlo, not_le.mpr hv]
    · simp [dbBoundsOk, hhi, not_le.mpr hv]
  have hmemViol : ∀ (v : ℚ) (m : MemRecipe), m.val n = some v →
      ((∃ lo, b.min? = some lo ∧ v < lo) ∨ (∃ hi, b.max? = some hi ∧ hi < v)) →
      nutrientCheckMem m nm n = false := by
    intro v m hval hviol
    rw [nutrientCheckMem, hdecl, hval]
    rcases hviol with ⟨lo, hlo, hv⟩ | ⟨hi, hhi, hv⟩
    · simp [memBoundsOk, hlo, not_le.mpr hv]
    · simp [memBoundsOk, hhi, not_le.mpr hv]
  have hmemAll : ∀ n : Nutrient,
      n ∈ [Nutrient.calories, .protein, .fat, .sodium, .sugar, .saturates] := by
    intro n
    cases n <;> simp
  refine ⟨?_, ?_, ?_, ?_, ?_⟩
  · intro r hval
    rw [dbNutritionOk]
    rw [List.all_eq_false]
    exact ⟨n, hmemAll n, by simp [hdbNone r hval]⟩
  · intro db pq maxR off hpq s hs
    obtain ⟨hf, -, -⟩ := mem_searchDatabase hs
    have hnutr : dbNutritionOk s.recipe pq.nutrition = true := by
      simp [dbFilter] at hf
      exact hf.1.1.2
    rcases hval : s.recipe.val n with _ | v
    · exfalso
      have hfalse : dbNutritionOk s.recipe nm = false := by
        rw [dbNutritionOk, List.all_eq_false]
        exact ⟨n, hmemAll n, by simp [hdbNone s.recipe hval]⟩
      rw [hpq, hfalse] at hnutr
      cases hnutr
    · simp
  · intro m hval
    constructor
    · rw [nutrientCheckMem, hdecl, hval]
      rfl
    · intro hothers
      rw [nutritionMatches, List.all_eq_true]
      intro n2 hn2
      by_cases he : n2 = n
      · subst he
        rw [nutrientCheckMem, hdecl, hval]
        rfl
      · exact hothers n2 he
  · intro v r hval hviol
    rw [dbNutritionOk, List.all_eq_false]
    exact ⟨n, hmemAll n, by simp [hdbViol v r hval hviol]⟩
  · intro v m hval hviol
    rw [nutritionMatches, List.all_eq_false]
    exact ⟨n, hmemAll n, by simp [hmemViol v m hval hviol]⟩

theorem claim_C5_nutrition_asymmetry_witness :
    wNM.get Nutrient.protein = some ⟨some 15, none⟩ ∧
    ((∀ r : Recipe, r.val .protein = none → dbNutritionOk r wNM = false)
    ∧ (∀ (db : List Recipe) (pq : ParsedQuery) (maxR off : Nat), pq.nutrition = wNM →
        ∀ s ∈ searchDatabase db pq maxR off, (s.recipe.val .protein).isSome)
    ∧ (∀ m : MemRecipe, m.val .protein = none →
        nutrientCheckMem m wNM .protein = true ∧
        ((∀ n2 : Nutrient, n2 ≠ .protein → nutrientCheckMem m wNM n2 = true) →
          nutritionMatches m wNM = true))
    ∧ (∀ (v : ℚ) (r : Recipe), r.val .protein = some v →
        ((∃ lo, (Bounds.mk (some 15) none).min? = some lo ∧ v < lo) ∨
         (∃ hi, (Bounds.mk (some 15) none).max? = some hi ∧ hi < v)) →
        dbNutritionOk r wNM = false)
    ∧ (∀ (v : ℚ) (m : MemRecipe), m.val .protein = some v →
        ((∃ lo, (Bounds.mk (some 15) none).min? = some lo ∧ v < lo) ∨
         (∃ hi, (Bounds.mk (some 15) none).max? = some hi ∧ hi < v)) →
        nutritionMatches m wNM = false)) :=
  ⟨rfl, claim_C5_nutrition_asymmetry wNM .protein ⟨some 15, none⟩ rfl⟩

/-! ## Claim C6: score monotonicity in satisfied required ingredients -/
theorem ingScoreOne_nonneg (t s i : Str) : 0 ≤ ingScoreOne t s i := by
  unfold ingScoreOne
  dsimp only
  apply add_nonneg
  · by_cases h : i <:+: t
    · rw [if_pos h]
      split_ifs <;> norm_num
    · rw [if_neg h]
  · split_ifs <;> norm_num

theorem comboProxSum_nonneg (tw : List Str) (dish : Str) (ings : List Str) :
    0 ≤ (ings.map (fun ing =>
      if ing ∈ tw ∧ ((tw.indexOf dish : ℤ) - (tw.indexOf ing : ℤ)).natAbs ≤ 2
      then (10 : ℚ) else 0)).sum := by
  apply List.sum_nonneg
  intro q hq
  obtain ⟨i, -, rfl⟩ := List.mem_map.mp hq
  split_ifs <;> norm_num

theorem comboBonus_nonneg (t : Str) (d : Option Str) (ings : List Str) :
    0 ≤ comboBonus t d ings := by
  match d with
  | none => simp [comboBonus]
  | some dish =>
    simp only [comboBonus]
    by_cases h1 : ings = []
    · rw [if_pos h1]
    · rw [if_neg h1]
      by_cases h2 : dish <:+: t ∧ 0 < ings.countP (fun ing => decide (ing <:+: t))
      · rw [if_pos h2]
        by_cases h3 : dish ∈ pyWords t
        · rw [if_pos h3]
          have := comboProxSum_nonneg (pyWords t) dish ings
          linarith
        · rw [if_neg h3]
          norm_num
      · rw [if_neg h2]

theorem comboBonus_append_le (t : Str) (d : Option Str) (ings : List Str) (x : Str) :
    comboBonus t d ings ≤ comboBonus t d (ings ++ [x]) := by
  match d with
  | none => simp [comboBonus]
  | some dish =>
    by_cases hne : ings = []
    · subst hne
      calc comboBonus t (some dish) [] = 0 := by simp [comboBonus]
        _ ≤ comboBonus t (some dish) ([] ++ [x]) := comboBonus_nonneg _ _ _
    · have hxne : ings ++ [x] ≠ [] := by simp
      simp only [comboBonus, if_neg hne, if_neg hxne]
      have hcnt : (ings ++ [x]).countP (fun ing => decide (ing <:+: t)) =
          ings.countP (fun ing => decide (ing <:+: t)) +
          (if x <:+: t then 1 else 0) := by
        rw [List.countP_append]
        congr 1
        simp [List.countP_cons]
      by_cases hc : dish <:+: t ∧ 0 < ings.countP (fun ing => decide (ing <:+: t))
      · have hc2 : dish <:+: t ∧
            0 < (ings ++ [x]).countP (fun ing => decide (ing <:+: t)) := by
          refine ⟨hc.1, ?_⟩
          rw [hcnt]
          have := hc.2
          split_ifs <;> omega
        rw [if_pos hc, if_pos hc2]
        by_cases hw : dish ∈ pyWords t
        · rw [if_pos hw, if_pos hw]
          rw [List.map_append, List.sum_append]
          have h0 : 0 ≤ (([x] : List Str).map (fun ing =>
              if ing ∈ pyWords t ∧
                 (((pyWords t).indexOf dish : ℤ) - ((pyWords t).indexOf ing : ℤ)).natAbs ≤ 2
              then (10 : ℚ) else 0)).sum := comboProxSum_nonneg _ _ _
          linarith
        · rw [if_neg hw, if_neg hw]
      · rw [if_neg hc]
        by_cases h2 : dish <:+: t ∧
            0 < (ings ++ [x]).countP (fun ing => decide (ing <:+: t))
        · rw [if_pos h2]
          by_cases h3 : dish ∈ pyWords t
          · rw [if_pos h3]
            have := comboProxSum_nonneg (pyWords t) dish (ings ++ [x])
            linarith
          · rw [if_neg h3]
            norm_num
        · rw [if_neg h2]

/-- **C6 (amended).** The per-candidate scores are monotone in satisfied
required ingredients: appending an ingredient that the candidate
already contains never decreases (a) the indexed-mode rule score
`_calculate_recipe_score`, nor (b) the scan-mode raw
(pre-normalisation) score of `_calculate_rule_scores`.  (The published
scan-mode score is additionally divided by the maximum over all
recipes and can decrease — see the counterexample.) -/
theorem claim_C6_monotonicity :
    (∀ (r : Recipe) (pq : ParsedQuery) (x : Str),
      (x <:+: r.title ∨ x <:+: r.searchText) →
      calcRecipeScore r pq ≤
        calcRecipeScore r { pq with ingredients := pq.ingredients ++ [x] })
    ∧ (∀ (m : MemRecipe) (pq : ParsedQuery) (x : Str),
      x <:+: recipeToText m →
      memRuleScoreRaw pq m ≤
        memRuleScoreRaw { pq with ingredients := pq.ingredients ++ [x] } m) := by
  constructor
  · intro r pq x hx
    simp only [calcRecipeScore]
    gcongr
    · rw [List.map_append, List.sum_append]
      have h0 := ingScoreOne_nonneg r.title r.searchText x
      simp only [List.map_cons, List.map_nil, List.sum_cons, List.sum_nil]
      linarith
    · exact comboBonus_append_le r.title pq.dishName pq.ingredients x
  · intro m pq x hx
    simp only [memRuleScoreRaw]
    gcongr
    have hcnt : (pq.ingredients ++ [x]).countP
        (fun ing => decide (ing <:+: recipeToText m)) =
        pq.ingredients.countP (fun ing => decide (ing <:+: recipeToText m)) + 1 := by
      rw [List.countP_append]
      congr 1
      simp [List.countP_cons, hx]
    by_cases hne : pq.ingredients = []
    · rw [if_pos hne]
      have hone : pq.ingredients ++ [x] ≠ [] := by simp
      rw [if_neg hone]
      positivity
    · have hxne : pq.ingredients ++ [x] ≠ [] := by simp
      rw [if_neg hne, if_neg hxne, hcnt]
      push_cast [List.length_append, List.length_singleton]
      have hck : (pq.ingredients.countP
          (fun ing => decide (ing <:+: recipeToText m)) : ℚ) ≤
          (pq.ingredients.length : ℚ) := by
        exact_mod_cast List.countP_le_length _
      have hkpos : 0 < (pq.ingredients.length : ℚ) := by
        have hne2 : pq.ingredients.length ≠ 0 := by
          simpa [List.length_eq_zero] using hne
        exact_mod_cast Nat.pos_of_ne_zero hne2
      have key : (pq.ingredients.countP
            (fun ing => decide (ing <:+: recipeToText m)) : ℚ) /
            (pq.ingredients.length : ℚ) ≤
          ((pq.ingredients.countP
            (fun ing => decide (ing <:+: recipeToText m)) : ℚ) + 1) /
            ((pq.ingredients.length : ℚ) + 1) := by
        rw [div_le_div_iff₀ hkpos (by linarith)]
        nlinarith
      have hmul := mul_le_mul_of_nonneg_left key (by norm_num : (0:ℚ) ≤ 3/10)
      linarith

theorem claim_C6_monotonicity_witness :
    ((lit "apple") <:+: wRecipe.title ∨ (lit "apple") <:+: wRecipe.searchText) ∧
    calcRecipeScore wRecipe wPQ ≤
      calcRecipeScore wRecipe { wPQ with ingredients := wPQ.ingredients ++ [lit "apple"] } ∧
    ((lit "apple") <:+: recipeToText wMemRecipe ∧
     memRuleScoreRaw wPQ wMemRecipe ≤
       memRuleScoreRaw { wPQ with ingredients := wPQ.ingredients ++ [lit "apple"] } wMemRecipe) :=
  ⟨by decide,
   claim_C6_monotonicity.1 wRecipe wPQ (lit "apple") (by decide),
   by decide,
   claim_C6_monotonicity.2 wMemRecipe wPQ (lit "apple") (by decide)⟩

/-- **C6 counterexample.** The published scan-mode rule score
(`_calculate_rule_scores` after division by the per-snapshot maximum)
is not monotone: appending required ingredient "b", which candidate
`c6C` already contains in its search text, lowers `c6C`'s normalised
score from 3/4 to 6/11, because the other candidate's raw score grows
more. -/
theorem claim_C6_counterexample :
    c6PQ2 = { c6PQ1 with ingredients := c6PQ1.ingredients ++ [lit "b"] } ∧
    (lit "b") <:+: recipeToText c6C ∧
    (memRuleScores c6PQ2 [c6C, c6E]).getD 0 0 <
      (memRuleScores c6PQ1 [c6C, c6E]).getD 0 0 := by
  with_unfolding_all decide

/-- A fold step that either keeps the accumulator or appends a fresh
element preserves `Nodup`. -/
theorem foldl_guard_nodup {f : List Str → Str → List Str}
    (hf : ∀ acc a, f acc a = acc ∨ (f acc a = acc ++ [a] ∧ a ∉ acc)) :
    ∀ (l : List Str) (acc : List Str), acc.Nodup → (l.foldl f acc).Nodup := by
  intro l
  induction l with
  | nil => intro acc h; exact h
  | cons a l ih =>
    intro acc h
    rw [List.foldl_cons]
    rcases hf acc a with heq | ⟨heq, hmem⟩
    · rw [heq]; exact ih acc h
    · rw [heq]
      apply ih
      simp [List.nodup_append, h, hmem]

/-- A fold step that only ever appends elements satisfying `P` keeps the
accumulator inside `P`. -/
theorem foldl_guard_pred {f : List Str → Str → List Str} {P : Str → Prop}
    (hf : ∀ acc a, f acc a = acc ∨ (f acc a = acc ++ [a] ∧ P a)) :
    ∀ (l acc : List Str), (∀ x ∈ acc, P x) → ∀ x ∈ l.foldl f acc, P x := by
  intro l
  induction l with
  | nil => intro acc h; exact h
  | cons a l ih =>
    intro acc h
    rw [List.foldl_cons]
    rcases hf acc a with heq | ⟨heq, hP⟩
    · rw [heq]; exact ih acc h
    · rw [heq]
      apply ih
      intro x hx
      rcases List.mem_append.mp hx with hx | hx
      · exact h x hx
      · rw [List.mem_singleton.mp hx]
        exact hP

theorem resolveIngStep_shape (excitem : Str) :
    ∀ acc a, resolveIngStep excitem acc a = acc ∨
      (resolveIngStep excitem acc a = acc ++ [a] ∧ a ∉ acc) := by
  intro acc a
  unfold resolveIngStep
  split_ifs with h
  · exact Or.inr ⟨rfl, h.2.1⟩
  · exact Or.inl rfl

theorem resolveStep_nodup (excitem : Str) {acc : List Str} (h : acc.Nodup) :
    (resolveStep excitem acc).Nodup :=
  foldl_guard_nodup (resolveIngStep_shape excitem) commonIngredients acc h

theorem resolveExclusions_nodup (captures : List Str) :
    (resolveExclusions captures).Nodup := by
  suffices h : ∀ (cs : List Str) (acc : List Str), acc.Nodup →
      (cs.foldl (fun exc item => resolveStep item exc) acc).Nodup by
    exact h captures [] List.nodup_nil
  intro cs
  induction cs with
  | nil => intro acc h; exact h
  | cons a cs ih =>
    intro acc h
    rw [List.foldl_cons]
    exact ih _ (resolveStep_nodup a h)

theorem includeStep_shape (query : Str) (excluded : List Str) :
    ∀ acc a, includeStep query excluded acc a = acc ∨
      (includeStep query excluded acc a = acc ++ [a] ∧ a ∉ acc ∧ a ∉ excluded) := by
  intro acc a
  unfold includeStep
  dsimp only
  split_ifs with h1 h2
  · refine Or.inr ⟨rfl, h2.2, ?_⟩
    intro hmem
    exact h2.1 (Or.inr hmem)
  · exact Or.inl rfl
  · exact Or.inl rfl

theorem findIncluded_nodup (query : Str) (excluded : List Str) :
    (findIncluded query excluded).Nodup :=
  foldl_guard_nodup
    (fun acc a => (includeStep_shape query excluded acc a).imp id (fun h => ⟨h.1, h.2.1⟩))
    commonIngredients [] List.nodup_nil

theorem findIncluded_not_excluded (query : Str) (excluded : List Str) :
    ∀ x ∈ findIncluded query excluded, x ∉ excluded :=
  foldl_guard_pred
    (fun acc a => (includeStep_shape query excluded acc a).imp id (fun h => ⟨h.1, h.2.2⟩))
    commonIngredients [] (by intro x hx; cases hx)

/-- **C7.** For every capture sequence and query: the returned lists are
deduplicated and capped at 10; an ingredient resolved as excluded never
appears in the required list (exclusion wins — it is excluded or
omitted, never required); and no ingredient appears in both returned
lists. -/
theorem claim_C7_parser_invariants (captures : List Str) (query : Str) :
    (extractIngredients captures query).1.Nodup
    ∧ (extractIngredients captures query).2.Nodup
    ∧ (extractIngredients captures query).1.length ≤ 10
    ∧ (extractIngredients captures query).2.length ≤ 10
    ∧ (∀ x ∈ resolveExclusions captures, x ∉ (extractIngredients captures query).1)
    ∧ (∀ x ∈ (extractIngredients captures query).1,
        x ∉ (extractIngredients captures query).2) := by
  have hinc : ∀ x ∈ findIncluded query (resolveExclusions captures),
      x ∉ resolveExclusions captures :=
    findIncluded_not_excluded query (resolveExclusions captures)
  refine ⟨?_, ?_, ?_, ?_, ?_, ?_⟩
  · exact ((List.take_sublist 10 _).nodup
      (findIncluded_nodup query (resolveExclusions captures)))
  · exact ((List.take_sublist 10 _).nodup (resolveExclusions_nodup captures))
  · simp only [extractIngredients]
    exact List.length_take_le 10 (findIncluded query (resolveExclusions captures))
  · simp only [extractIngredients]
    exact List.length_take_le 10 (resolveExclusions captures)
  · intro x hx hmem
    exact hinc x (List.take_subset 10 _ hmem) hx
  · intro x hx hmem
    exact hinc x (List.take_subset 10 _ hx) (List.take_subset 10 _ hmem)

/-- **C4 (amended).** `setdefault` applies only at the nutrient level: a
modifier phrase creates the nutrient entry when absent and then
overwrites the bound key unconditionally.  E.g. whenever the query
contains a high-protein phrase, the final protein entry has
`min = 15`, regardless of any explicit numeric constraint the numeric
pass stored. -/
theorem claim_C4_modifier_overwrites (q : Str) (nm : NutritionMap)
    (h : hasAny q [lit "high protein", lit "high-protein", lit "protein rich"] = true) :
    ((applyModifiers q nm).protein).map Bounds.min? = some (some 15) := by
  have step_ite : ∀ (c : Prop) [Decidable c] (f : NutritionMap → NutritionMap)
      (m : NutritionMap),
      (∀ m2 : NutritionMap, (m2.protein).map Bounds.min? = some (some 15) →
        ((f m2).protein).map Bounds.min? = some (some 15)) →
      (m.protein).map Bounds.min? = some (some 15) →
      ((if c then f m else m).protein).map Bounds.min? = some (some 15) := by
    intro c inst f m hf hm
    split_ifs
    · exact hf m hm
    · exact hm
  have keep : ∀ (g : NutritionMap → NutritionMap),
      (∀ m2 : NutritionMap, (g m2).protein = m2.protein) →
      ∀ m2 : NutritionMap, (m2.protein).map Bounds.min? = some (some 15) →
        ((g m2).protein).map Bounds.min? = some (some 15) := by
    intro g hg m2 hm2
    rw [hg]
    exact hm2
  have pmax : ∀ m2 : NutritionMap, (m2.protein).map Bounds.min? = some (some 15) →
      ((m2.setMax .protein 10).protein).map Bounds.min? = some (some 15) := by
    intro m2 hm2
    rcases hm : m2.protein with _ | b
    · rw [hm] at hm2
      simp at hm2
    · rw [hm] at hm2
      simp at hm2
      simp [NutritionMap.setMax, Bounds.withMax, hm, hm2]
  have base : ((nm.setMin .protein 15).protein).map Bounds.min? = some (some 15) := by
    rcases hm : nm.protein with _ | b <;>
      simp [NutritionMap.setMin, Bounds.withMin, hm]
  unfold applyModifiers
  rw [if_pos h]
  dsimp only
  refine step_ite _ (fun m => m.setMax Nutrient.sugar 5) _ (keep _ (fun m2 => rfl)) ?_
  refine step_ite _ (fun m => m.setMax Nutrient.sodium 400) _ (keep _ (fun m2 => rfl)) ?_
  refine step_ite _ (fun m => m.setMax Nutrient.calories 300) _ (keep _ (fun m2 => rfl)) ?_
  refine step_ite _ (fun m => m.setMax Nutrient.fat 10) _ (keep _ (fun m2 => rfl)) ?_
  refine step_ite _ (fun m => m.setMax Nutrient.protein 10) _ pmax ?_
  refine step_ite _ (fun m => m.setMin Nutrient.fat 15) _ (keep _ (fun m2 => rfl)) ?_
  refine step_ite _ (fun m => m.setMin Nutrient.calories 400) _ (keep _ (fun m2 => rfl)) ?_
  exact base

/-- **C4 counterexample.** On `c4Q` the numeric pass stores
`protein.min = 30`, but the "high protein" modifier then overwrites it
with 15: the modifier does not leave the explicit numeric value
unchanged. -/
theorem claim_C4_counterexample :
    (numericPass c4Q).protein = some ⟨some 30, none⟩ ∧
    (extractNutrition c4Q).protein = some ⟨some 15, none⟩ := by
  with_unfolding_all decide

theorem claim_C4_modifier_overwrites_witness :
    hasAny c4Q [lit "high protein", lit "high-protein", lit "protein rich"] = true ∧
    ((applyModifiers c4Q (numericPass c4Q)).protein).map Bounds.min? = some (some 15) :=
  ⟨by decide, claim_C4_modifier_overwrites c4Q (numericPass c4Q) (by decide)⟩

/-- **C9.** For a recipe id absent from the Recipe Source, `find_similar`
returns the empty sequence (and, being a total function, never raises);
for any id it returns at most `limit` results. -/
theorem claim_C9_find_similar (tsim : Recipe → List Recipe → Nat → ℚ)
    (nsim : Recipe → Recipe → ℚ) (db : List Recipe) (recipeId limit : Nat)
    (minScore : ℚ) :
    ((∀ r ∈ db, r.id ≠ recipeId) →
      findSimilar tsim nsim db recipeId limit minScore = [])
    ∧ (findSimilar tsim nsim db recipeId limit minScore).length ≤ limit := by
  constructor
  · intro hnone
    unfold findSimilar
    have hfind : db.find? (fun r => decide (r.id = recipeId)) = none := by
      rw [List.find?_eq_none]
      intro x hx
      simp [hnone x hx]
    rw [hfind]
  · unfold findSimilar
    rcases hfind : db.find? (fun r => decide (r.id = recipeId)) with _ | t
    · rw [hfind]
      simp
    · rw [hfind]
      exact List.length_take_le limit _

theorem claim_C9_find_similar_witness :
    (∀ r ∈ [wRecipe], r.id ≠ 99) ∧
    findSimilar (fun _ _ _ => 0) (fun _ _ => 0) [wRecipe] 99 5 (3/10) = [] ∧
    (findSimilar (fun _ _ _ => 0) (fun _ _ => 0) [wRecipe] 99 5 (3/10)).length ≤ 5 :=
  ⟨by decide,
   (claim_C9_find_similar (fun _ _ _ => 0) (fun _ _ => 0) [wRecipe] 99 5 (3/10)).1
     (by decide),
   (claim_C9_find_similar (fun _ _ _ => 0) (fun _ _ => 0) [wRecipe] 99 5 (3/10)).2⟩

/-- Candidates returned by `_get_meal_candidates` never carry an already
used recipe id (for any permutation oracle). -/
theorem mem_getMealCandidates {db : List Recipe} {shuffle : List Recipe → List Recipe}
    {c : Constraints} {used : List Nat} {limit : Nat} {r : Recipe}
    (hsh : ∀ l : List Recipe, List.Perm (shuffle l) l)
    (h : r ∈ getMealCandidates db shuffle c used limit) : r.id ∉ used := by
  unfold getMealCandidates at h
  have h1 := List.mem_of_mem_take h
  rw [(hsh _).mem_iff] at h1
  have h2 := (List.mem_filter.mp h1).2
  unfold mealCandidateFilter at h2
  simp only [Bool.and_eq_true] at h2
  have h3 := h2.1.1.1.1.1.1
  simpa using h3

/-- The arg-max fold of the variety selection only ever installs
candidates drawn from its input list. -/
theorem selectFold_mem (usedIng : Str → Nat) (varietyWeight : ℚ) (rnd : Nat → ℚ)
    (P : Recipe → Prop) :
    ∀ (l : List (Nat × Recipe)) (st : Option Recipe × ℚ),
      (∀ r, st.1 = some r → P r) → (∀ p ∈ l, P p.2) →
      ∀ r, ((l.foldl (fun st p =>
        let totalScore := varietyScore usedIng p.2 * varietyWeight +
          rnd p.1 * (1 - varietyWeight)
        if st.2 < totalScore then (some p.2, totalScore) else st) st).1 = some r) →
      P r := by
  intro l
  induction l with
  | nil => intro st hst _ r hr; exact hst r hr
  | cons p l ih =>
    intro st hst hl r hr
    rw [List.foldl_cons] at hr
    refine ih _ ?_ (fun q hq => hl q (List.mem_cons_of_mem p hq)) r hr
    intro r2 hr2
    dsimp only at hr2
    split_ifs at hr2
    · injection hr2 with h2
      rw [← h2]
      exact hl p (List.mem_cons_self p l)
    · exact hst r2 hr2

/-- The variety selection returns a member of the candidate list. -/
theorem selectRecipeWithVariety_mem {pick : List Recipe → Recipe} {rnd : Nat → ℚ}
    {candidates : List Recipe} {usedIng : Str → Nat} {varietyWeight : ℚ} {r : Recipe}
    (hpick : ∀ l : List Recipe, l ≠ [] → pick l ∈ l)
    (h : selectRecipeWithVariety pick rnd candidates usedIng varietyWeight = some r) :
    r ∈ candidates := by
  rcases candidates with _ | ⟨c0, cs⟩
  · simp [selectRecipeWithVariety] at h
  · simp only [selectRecipeWithVariety] at h
    by_cases hv : varietyWeight < 1/10
    · rw [if_pos hv] at h
      injection h with h2
      rw [← h2]
      exact hpick _ (by simp)
    · rw [if_neg hv] at h
      rcases hres : ((c0 :: cs).enum.foldl (fun st p =>
          let totalScore := varietyScore usedIng p.2 * varietyWeight +
            rnd p.1 * (1 - varietyWeight)
          if st.2 < totalScore then (some p.2, totalScore) else st)
          ((none : Option Recipe), (-1 : ℚ))).1 with _ | r2
      · rw [hres] at h
        injection h with h2
        rw [← h2]
        exact List.mem_cons_self c0 cs
      · rw [hres] at h
        injection h with h2
        rw [← h2]
        refine selectFold_mem usedIng varietyWeight rnd (fun x => x ∈ c0 :: cs)
          ((c0 :: cs).enum) ((none : Option Recipe), (-1 : ℚ)) ?_ ?_ r2 hres
        · intro r3 hr3
          cases hr3
        · intro p hp
          have hm := List.mem_map_of_mem Prod.snd hp
          rw [List.enum_map_snd] at hm
          exact hm

/-- The slot invariant: the plan ids seen so far (a fixed prefix plus
the current day's meals) stay duplicate-free and inside the used set;
`doSlot` preserves it and only grows the used set. -/
theorem doSlot_invariant (db : List Recipe)
    (shuffleO : Nat → Nat → Bool → List Recipe → List Recipe)
    (pickO : Nat → Nat → List Recipe → Recipe)
    (randO : Nat → Nat → Nat → ℚ)
    (prefs : Preferences) (goals : List (String × ℚ))
    (vw cpm dcal : ℚ) (day : Nat)
    (hsh : ∀ d s b (l : List Recipe), List.Perm (shuffleO d s b l) l)
    (hpk : ∀ d s (l : List Recipe), l ≠ [] → pickO d s l ∈ l)
    (prev : List Nat) (st : SlotState) (slot : Nat × Str)
    (hnd : (prev ++ mealIds st.meals).Nodup)
    (hmem : ∀ i ∈ prev ++ mealIds st.meals, i ∈ st.used) :
    ((prev ++ mealIds (doSlot db shuffleO pickO randO prefs goals vw cpm dcal day
        st slot).meals).Nodup
     ∧ (∀ i ∈ prev ++ mealIds (doSlot db shuffleO pickO randO prefs goals vw cpm dcal
          day st slot).meals,
          i ∈ (doSlot db shuffleO pickO randO prefs goals vw cpm dcal day st slot).used)
     ∧ (∀ i ∈ st.used,
          i ∈ (doSlot db shuffleO pickO randO prefs goals vw cpm dcal day st slot).used)) := by
  unfold doSlot
  dsimp only
  rcases hsel : selectRecipeWithVariety (pickO day slot.1) (randO day slot.1)
      (if getMealCandidates db (shuffleO day slot.1 false)
            (buildMealConstraints slot.2 prefs goals cpm st.dayCal dcal) st.used 50 = [] then
         getMealCandidates db (shuffleO day slot.1 true) (fallbackConstraints slot.2)
           st.used 20
       else
         getMealCandidates db (shuffleO day slot.1 false)
           (buildMealConstraints slot.2 prefs goals cpm st.dayCal dcal) st.used 50)
      st.usedIng vw with _ | sel
  · exact ⟨hnd, hmem, fun i hi => hi⟩
  · dsimp only
    have hselmem := selectRecipeWithVariety_mem (hpk day slot.1) hsel
    have hnotused : sel.id ∉ st.used := by
      by_cases hc : getMealCandidates db (shuffleO day slot.1 false)
          (buildMealConstraints slot.2 prefs goals cpm st.dayCal dcal) st.used 50 = []
      · rw [if_pos hc] at hselmem
        exact mem_getMealCandidates (fun l => hsh day slot.1 true l) hselmem
      · rw [if_neg hc] at hselmem
        exact mem_getMealCandidates (fun l => hsh day slot.1 false l) hselmem
    have hfresh : sel.id ∉ prev ++ mealIds st.meals := fun hin => hnotused (hmem _ hin)
    have hidsapp : mealIds (st.meals ++ [⟨sel, slot.2, slot.1 + 1, sel.mealNutrition⟩]) =
        mealIds st.meals ++ [sel.id] := by
      simp [mealIds]
    refine ⟨?_, ?_, ?_⟩
    · rw [hidsapp, ← List.append_assoc]
      refine List.Nodup.append hnd (List.nodup_singleton _) ?_
      intro a ha hb
      rw [List.mem_singleton] at hb
      exact hfresh (hb ▸ ha)
    · intro i hi
      rw [hidsapp, ← List.append_assoc] at hi
      rcases List.mem_append.mp hi with hi | hi
      · exact List.mem_append_left _ (hmem i hi)
      · exact List.mem_append_right _ hi
    · intro i hi
      exact List.mem_append_left _ hi

/-- The slot fold over a whole day preserves the invariant. -/
theorem foldSlots_invariant (db : List Recipe)
    (shuffleO : Nat → Nat → Bool → List Recipe → List Recipe)
    (pickO : Nat → Nat → List Recipe → Recipe)
    (randO : Nat → Nat → Nat → ℚ)
    (prefs : Preferences) (goals : List (String × ℚ))
    (vw cpm dcal : ℚ) (day : Nat)
    (hsh : ∀ d s b (l : List Recipe), List.Perm (shuffleO d s b l) l)
    (hpk : ∀ d s (l : List Recipe), l ≠ [] → pickO d s l ∈ l)
    (prev : List Nat) :
    ∀ (slots : List (Nat × Str)) (st : SlotState),
      (prev ++ mealIds st.meals).Nodup →
      (∀ i ∈ prev ++ mealIds st.meals, i ∈ st.used) →
      (((prev ++ mealIds (slots.foldl
          (doSlot db shuffleO pickO randO prefs goals vw cpm dcal day) st).meals).Nodup)
       ∧ (∀ i ∈ prev ++ mealIds (slots.foldl
            (doSlot db shuffleO pickO randO prefs goals vw cpm dcal day) st).meals,
            i ∈ (slots.foldl
              (doSlot db shuffleO pickO randO prefs goals vw cpm dcal day) st).used)) := by
  intro slots
  induction slots with
  | nil => intro st hnd hmem; exact ⟨hnd, hmem⟩
  | cons slot slots ih =>
    intro st hnd hmem
    rw [List.foldl_cons]
    obtain ⟨h1, h2, -⟩ := doSlot_invariant db shuffleO pickO randO prefs goals vw cpm
      dcal day hsh hpk prev st slot hnd hmem
    exact ih _ h1 h2

/-- **C8.** No recipe id appears in more than one meal slot of a
generated plan: every candidate lookup (including the relaxed
fallback) excludes the ids already placed, and each placed id enters
the used set before the next slot is filled.  Holds for every
randomness oracle (candidate permutation, random choice, variety
randomness). -/
theorem claim_C8_no_duplicate_recipes (db : List Recipe)
    (shuffleO : Nat → Nat → Bool → List Recipe → List Recipe)
    (pickO : Nat → Nat → List Recipe → Recipe)
    (randO : Nat → Nat → Nat → ℚ)
    (days mealsPerDay : Nat) (prefs : Preferences)
    (goals : List (String × ℚ)) (varietyWeight : ℚ)
    (hsh : ∀ d s b (l : List Recipe), List.Perm (shuffleO d s b l) l)
    (hpk : ∀ d s (l : List Recipe), l ≠ [] → pickO d s l ∈ l) :
    (planIds (generatePlan db shuffleO pickO randO days mealsPerDay prefs goals
      varietyWeight)).Nodup := by
  unfold generatePlan
  dsimp only
  generalize (List.range (max 1 (min days 7))).map (fun d => d + 1) = dayList
  have hplanids : ∀ (ps : PlanState) (day : Nat) (meals : List Meal) (a b : ℚ),
      planIds (ps.plan ++ [⟨day, meals, a, b⟩]) = planIds ps.plan ++ mealIds meals := by
    intro ps day meals a b
    simp [planIds, mealIds]
  suffices h : ∀ (ds : List Nat) (ps : PlanState),
      (planIds ps.plan).Nodup →
      (∀ i ∈ planIds ps.plan, i ∈ ps.used) →
      (planIds (ds.foldl (doDay db shuffleO pickO randO prefs goals varietyWeight
        (goalsGet goals "calories" 2000 / ((max 2 (min mealsPerDay 4) : Nat) : ℚ))
        (goalsGet goals "calories" 2000)
        (mealTypeDistribution (max 2 (min mealsPerDay 4)))) ps).plan).Nodup by
    exact h dayList ⟨[], [], fun _ => 0⟩ (by simp [planIds]) (by simp [planIds])
  intro ds
  induction ds with
  | nil => intro ps hnd _; exact hnd
  | cons day ds ih =>
    intro ps hnd hmem
    rw [List.foldl_cons]
    apply ih
    · unfold doDay
      dsimp only
      rw [hplanids]
      exact (foldSlots_invariant db shuffleO pickO randO prefs goals _ _ _ day hsh hpk
        (planIds ps.plan) _ ⟨[], ps.used, ps.usedIng, 0, 0⟩ (by simpa [mealIds] using hnd)
        (by simpa [mealIds] using hmem)).1
    · unfold doDay
      dsimp only
      rw [hplanids]
      exact (foldSlots_invariant db shuffleO pickO randO prefs goals _ _ _ day hsh hpk
        (planIds ps.plan) _ ⟨[], ps.used, ps.usedIng, 0, 0⟩ (by simpa [mealIds] using hnd)
        (by simpa [mealIds] using hmem)).2

theorem headD_mem : ∀ (l : List Recipe) (d : Recipe), l ≠ [] → l.headD d ∈ l := by
  intro l d h
  cases l with
  | nil => exact absurd rfl h
  | cons a t => simp [List.headD]

theorem claim_C8_no_duplicate_recipes_witness :
    (∀ d s b (l : List Recipe), List.Perm (idShuffle d s b l) l) ∧
    (∀ d s (l : List Recipe), l ≠ [] → headPick d s l ∈ l) ∧
    (planIds (generatePlan [wRecipe] idShuffle headPick (fun _ _ _ => 0) 1 2
      ⟨false, false, false, false, false, false⟩ [("calories", 2000)] (1/2))).Nodup :=
  ⟨fun _ _ _ l => List.Perm.refl l,
   fun _ _ l h => headD_mem l wRecipe h,
   claim_C8_no_duplicate_recipes [wRecipe] idShuffle headPick (fun _ _ _ => 0) 1 2
     ⟨false, false, false, false, false, false⟩ [("calories", 2000)] (1/2)
     (fun _ _ _ l => List.Perm.refl l)
     (fun _ _ l h => headD_mem l wRecipe h)⟩

theorem lookup_goalAchievement (plan : List DayPlan) :
    ∀ (goals : List (String × ℚ)) (n : String),
      ((List.lookup n (goalAchievement plan goals)).isSome ↔
        ∃ g, (n, g) ∈ goals ∧ 0 < g)
      ∧ (∀ e, List.lookup n (goalAchievement plan goals) = some e →
          0 < e.target ∧ (n, e.target) ∈ goals ∧ e.actual = avgGet plan n ∧
          e.achievement = pyRound (e.actual / e.target * 100) 1) := by
  intro goals
  induction goals with
  | nil =>
    intro n
    constructor
    · simp [goalAchievement]
    · intro e he
      simp [goalAchievement] at he
  | cons p rest ih =>
    intro n
    by_cases hp : 0 < p.2
    · have hga : goalAchievement plan (p :: rest) =
          (p.1, ⟨p.2, avgGet plan p.1, pyRound (avgGet plan p.1 / p.2 * 100) 1⟩) ::
            goalAchievement plan rest := by
        simp [goalAchievement, hp]
      by_cases hn : n = p.1
      · subst hn
        rw [hga]
        constructor
        · simp only [List.lookup, beq_self_eq_true, Option.isSome_some, true_iff]
          exact ⟨p.2, by simp, hp⟩
        · intro e he
          simp only [List.lookup, beq_self_eq_true] at he
          injection he with he2
          rw [← he2]
          exact ⟨hp, by simp, rfl, rfl⟩
      · rw [hga]
        have hbeq : (n == p.1) = false := by
          simp [hn]
        obtain ⟨ih1, ih2⟩ := ih n
        have hlk : List.lookup n
            ((p.1, (⟨p.2, avgGet plan p.1,
              pyRound (avgGet plan p.1 / p.2 * 100) 1⟩ : GoalEntry)) ::
              goalAchievement plan rest) =
            List.lookup n (goalAchievement plan rest) := by
          simp [List.lookup, hbeq]
        rw [hlk]
        constructor
        · rw [ih1]
          constructor
          · rintro ⟨g, hg, hgp⟩
            exact ⟨g, List.mem_cons_of_mem _ hg, hgp⟩
          · rintro ⟨g, hg, hgp⟩
            rcases List.mem_cons.mp hg with heq | hmem
            · exact absurd (congrArg Prod.fst heq) hn
            · exact ⟨g, hmem, hgp⟩
        · intro e he
          obtain ⟨h1, h2, h3, h4⟩ := ih2 e he
          exact ⟨h1, List.mem_cons_of_mem _ h2, h3, h4⟩
    · have hga : goalAchievement plan (p :: rest) = goalAchievement plan rest := by
        simp [goalAchievement, hp]
      rw [hga]
      obtain ⟨ih1, ih2⟩ := ih n
      constructor
      · rw [ih1]
        constructor
        · rintro ⟨g, hg, hgp⟩
          exact ⟨g, List.mem_cons_of_mem _ hg, hgp⟩
        · rintro ⟨g, hg, hgp⟩
          rcases List.mem_cons.mp hg with heq | hmem
          · exfalso
            apply hp
            have := congrArg Prod.snd heq
            rw [← this]
            exact hgp
          · exact ⟨g, hmem, hgp⟩
      · intro e he
        obtain ⟨h1, h2, h3, h4⟩ := ih2 e he
        exact ⟨h1, List.mem_cons_of_mem _ h2, h3, h4⟩

/-- **C10.** The nutrition summary has a `goal_achievement` entry for a
nutrient if and only if that nutrient's goal value is strictly
positive; every entry carries a strictly positive target (so the
percentage never divides by a zero or negative value), the actual
average, and `round(actual/target*100, 1)`. -/
theorem claim_C10_goal_achievement (plan : List DayPlan)
    (goals : List (String × ℚ)) (n : String) :
    ((List.lookup n ((calcNutritionSummary plan goals).goalAchievement)).isSome ↔
      ∃ g, (n, g) ∈ goals ∧ 0 < g)
    ∧ (∀ e, List.lookup n ((calcNutritionSummary plan goals).goalAchievement) = some e →
        0 < e.target ∧ (n, e.target) ∈ goals ∧ e.actual = avgGet plan n ∧
        e.achievement = pyRound (e.actual / e.target * 100) 1) :=
  lookup_goalAchievement plan goals n

set_option maxRecDepth 8192 in
theorem claim_C10_goal_achievement_witness :
    (List.lookup "calories" ((calcNutritionSummary c10Plan c10Goals).goalAchievement) =
      some ⟨2000, avgGet c10Plan "calories",
        pyRound (avgGet c10Plan "calories" / 2000 * 100) 1⟩) ∧
    (0 < (⟨2000, avgGet c10Plan "calories",
        pyRound (avgGet c10Plan "calories" / 2000 * 100) 1⟩ : GoalEntry).target ∧
      ("calories",
        (⟨2000, avgGet c10Plan "calories",
          pyRound (avgGet c10Plan "calories" / 2000 * 100) 1⟩ : GoalEntry).target) ∈
        c10Goals ∧
      (⟨2000, avgGet c10Plan "calories",
        pyRound (avgGet c10Plan "calories" / 2000 * 100) 1⟩ : GoalEntry).actual =
        avgGet c10Plan "calories" ∧
      (⟨2000, avgGet c10Plan "calories",
        pyRound (avgGet c10Plan "calories" / 2000 * 100) 1⟩ : GoalEntry).achievement =
        pyRound ((⟨2000, avgGet c10Plan "calories",
          pyRound (avgGet c10Plan "calories" / 2000 * 100) 1⟩ : GoalEntry).actual /
          (⟨2000, avgGet c10Plan "calories",
            pyRound (avgGet c10Plan "calories" / 2000 * 100) 1⟩ : GoalEntry).target *
          100) 1) :=
  ⟨by with_unfolding_all decide,
   (claim_C10_goal_achievement c10Plan c10Goals "calories").2 _
     (by with_unfolding_all decide)⟩

set_option maxRecDepth 8192 in
theorem claim_C7_parser_invariants_witness :
    (lit "onion") ∈ resolveExclusions [lit "onion"] ∧
    (lit "onion") ∉ (extractIngredients [lit "onion"] (lit "chicken without onion")).1 :=
  ⟨by decide,
   (claim_C7_parser_invariants [lit "onion"] (lit "chicken without onion")).2.2.2.2.1
     (lit "onion") (by decide)⟩
